import Mathlib

/-!
Shallow embedding of the steamgrid artwork pipeline.

The source functions are translated module by module:
* download.go  (getGoogleImage, steamGridDBGetRequest, getSteamGridDBImage,
  getIGDBImage, tryDownload, getImageAlternatives, DownloadImage)
* backup.go    (backupGame, getBackupPath, removeExisting, loadExisting)
* overlays.go  (LoadOverlays normalization, ApplyOverlay)
* steamgrid.go (the per game and art style processing loop in startApplication)

External effects are modeled explicitly: HTTP requests become environment
records mapping a request to its outcome, the filesystem becomes an
association list from paths to byte lists, and the external image codecs
(image.Decode, apng, webpanimation) become oracle functions from byte lists
to their decode results, since their byte-level behaviour is library code
outside this repository.  Machine integers are modeled as Nat or Int with
explicit reduction modulo two to the word size where the Go code can wrap.
-/

namespace SteamGrid

/-- Raw file bytes, modeled as a list of byte values. -/
abbrev Bytes := List Nat

/-- Filesystem: an association list from paths to file contents. -/
abbrev FS := List (String × Bytes)

/-- Look a path up in the filesystem. -/
def lookupFS : FS → String → Option Bytes
  | [], _ => none
  | (q, c) :: rest, p => if q = p then some c else lookupFS rest p

/-- Model of ioutil.WriteFile: create the file or overwrite it in place. -/
def writeFS : FS → String → Bytes → FS
  | [], p, b => [(p, b)]
  | (q, c) :: rest, p, b => if q = p then (p, b) :: rest else (q, c) :: writeFS rest p b

/-- Model of os.Remove for a single path. -/
def removeFS : FS → String → FS
  | [], _ => []
  | (q, c) :: rest, p => if q = p then removeFS rest p else (q, c) :: removeFS rest p

/-- Remove a list of paths in order (the loop in removeExisting). -/
def removeAllFS (fs : FS) (ps : List String) : FS := ps.foldl removeFS fs

/-- The Game record from games.go restricted to the fields the pipeline
touches (ID, Name, Tags, ImageExt, CleanImageBytes, OverlayImageBytes,
ImageSource, Custom).  A nil Go byte slice is `none`. -/
structure Game where
  ID : String
  Name : String
  Tags : List String
  ImageExt : String
  CleanImageBytes : Option Bytes
  OverlayImageBytes : Option Bytes
  ImageSource : String
  Custom : Bool
deriving Repr, DecidableEq

/-- Model of filepath.Join for one extra component: the callers only join
non-empty clean components, where Join is plain concatenation with a
separator. -/
def joinPath (a b : String) : String := a ++ "/" ++ b

/-- Split a character list on a separator character (strings.Split for a
one-character separator, written with structural recursion so that proofs
can evaluate it). -/
def splitCharList (c : Char) : List Char → List (List Char)
  | [] => [[]]
  | x :: xs =>
    match splitCharList c xs with
    | [] => [[]]
    | h :: t => if x = c then [] :: h :: t else (x :: h) :: t

/-- strings.Split(s, c) for a one-character separator c. -/
def splitChar (s : String) (c : Char) : List String :=
  (splitCharList c s.data).map String.mk

/-- Model of filepath.Ext: the suffix beginning at the final dot in the final
path element, or the empty string when the final element has no dot. -/
def filepathExt (p : String) : String :=
  let base := (splitChar p '/').getLastD ""
  match splitChar base '.' with
  | [_] => ""
  | parts => "." ++ parts.getLastD ""

/-- The extension computation of DownloadImage (download.go): prefer the
Content-Type subtype, then the URL extension, and finally the bare string
"jpg" (without a leading dot); afterwards ".jpeg" is rewritten to ".jpg"
and ".octet-stream" to ".png".  Go indexes strings.Split(contentType,"/")[1]
and would panic on a Content-Type without a slash; that path is modeled by
the default value of getD and is never exercised here. -/
def computeImageExt (contentType urlExt : String) : String :=
  let e :=
    if contentType ≠ "" then "." ++ (splitChar contentType '/').getD 1 ""
    else if urlExt ≠ "" then urlExt
    else "jpg"
  if e = ".jpeg" then ".jpg"
  else if e = ".octet-stream" then ".png"
  else e

/-! ### HTTP model for the image chain -/

/-- An HTTP response as the chain observes it: status, the Content-Type
header, the path of the request URL, the body, and what image.Decode would
return on the body ((X, Y) of Bounds().Max, or none on a decode error). -/
structure HttpResponse where
  status : Nat
  contentType : String
  urlPath : String
  body : Bytes
  decoded : Option (Nat × Nat)
deriving Repr, DecidableEq

/-- Outcome of one http.Get. -/
inductive HttpFetch where
  | netErr (msg : String)
  | resp (r : HttpResponse)
deriving Repr, DecidableEq

/-- tryDownload (download.go): a 404 is a soft miss (ok none), any other
status of at least 400 is a hard error, anything else is a success. -/
def tryDownload : HttpFetch → Except String (Option HttpResponse)
  | .netErr m => .error m
  | .resp r =>
    if r.status = 404 then .ok none
    else if r.status ≥ 400 then
      .error ("Failed to download image: " ++ toString r.status)
    else .ok (some r)

/-! ### SteamGridDB provider (download.go) -/

/-- The JSON grid response, reduced to the fields the code reads:
the Success flag and the URL of each Data item. -/
structure SGDBGridData where
  Success : Bool
  URLs : List String
deriving Repr, DecidableEq

/-- The JSON search response, reduced to the fields the code reads:
the Success flag and (ID, Name) of each Data item. -/
structure SGDBSearchData where
  Success : Bool
  Data : List (Int × String)
deriving Repr, DecidableEq

/-- A response body together with what json.Unmarshal would produce from it
for either expected shape (none = unmarshal error). -/
structure SGDBBody where
  gridParse : Option SGDBGridData
  searchParse : Option SGDBSearchData
deriving Repr, DecidableEq

/-- Outcome of one authorized GET against SteamGridDB. -/
inductive SGDBFetch where
  | netErr (msg : String)
  | status (code : Nat) (body : SGDBBody)
deriving Repr, DecidableEq

/-- steamGridDBGetRequest: 401 and 404 are turned into sentinel error
strings, every other status has its body read and returned. -/
def steamGridDBGetRequest : SGDBFetch → Except String SGDBBody
  | .netErr m => .error m
  | .status c b =>
    if c = 401 then .error "401"
    else if c = 404 then .error "404"
    else .ok b

def steamGridDBBaseURL : String := "https://www.steamgriddb.com/api/v2"

/-- The auth-invalid sentinel message produced by getSteamGridDBImage and
matched by the caller in startApplication. -/
def authInvalidMsg : String := "SteamGridDB authorization token is missing or invalid"

/-- Environment of the SteamGridDB provider: the per-URL request outcome and
the external fuzzy.Sort (sorting the search data by similarity to a name). -/
structure SGDBEnv where
  request : String → SGDBFetch
  sortFn : List (Int × String) → String → List (Int × String)

/-- The grid-response epilogue of one loop iteration of getSteamGridDBImage
(json.Unmarshal plus the Success check): some r means the function returns r,
none means the loop falls through to the next dimension filter. -/
def sgdbFinish (b : SGDBBody) : Option (Except String String) :=
  match b.gridParse with
  | none => some (.error "unexpected end of JSON input")
  | some g =>
    if g.Success ∧ g.URLs ≠ [] then some (.ok (g.URLs.headD ""))
    else none

/-- One iteration (i = 0 for HQ, i = 2 for LQ) of the dimension loop in
getSteamGridDBImage: request by Steam app id, fall back to the fuzzy name
search on a 404, and surface a 401 as the auth-invalid sentinel. -/
def sgdbTryDimension (env : SGDBEnv) (game : Game) (exts : List String)
    (filter0 : String) (i : Nat) : Option (Except String String) :=
  let filter := filter0 ++ "&dimensions=" ++ exts.getD (3 + i) "" ++ "x" ++ exts.getD (4 + i) ""
  let ext1 := exts.getD 1 ""
  let baseURL :=
    if ext1 = ".banner" then steamGridDBBaseURL ++ "/grids"
    else if ext1 = ".cover" then steamGridDBBaseURL ++ "/grids"
    else if ext1 = ".hero" then steamGridDBBaseURL ++ "/heroes"
    else if ext1 = ".logo" then steamGridDBBaseURL ++ "/logos"
    else ""
  let url1 := baseURL ++ "/steam/" ++ game.ID ++ filter
  let r1 : Except String SGDBBody :=
    if !game.Custom then steamGridDBGetRequest (env.request url1)
    else .error "404"
  match r1 with
  | .ok b1 => sgdbFinish b1
  | .error e =>
    if e = "401" then some (.error authInvalidMsg)
    else if e = "404" then
      let url2 := steamGridDBBaseURL ++ "/search/autocomplete/" ++ game.Name ++ filter
      match steamGridDBGetRequest (env.request url2) with
      | .error e2 =>
        if e2 = "401" then some (.error authInvalidMsg) else some (.error e2)
      | .ok b2 =>
        match b2.searchParse with
        | none => some (.error "Best search match doesnt has a requested type or style")
        | some sr =>
          let sgdbGameID : Int :=
            if sr.Success ∧ sr.Data ≠ [] then
              ((env.sortFn sr.Data game.Name).headD (-1, "")).1
            else -1
          if sgdbGameID = -1 then some (.ok "")
          else
            let url3 := baseURL ++ "/game/" ++ toString sgdbGameID ++ filter
            match steamGridDBGetRequest (env.request url3) with
            | .error e3 => some (.error e3)
            | .ok b3 => sgdbFinish b3
    else some (.error e)

/-- getSteamGridDBImage: try the HQ dimensions, then the LQ dimensions, and
miss with an empty URL when both fall through. -/
def getSteamGridDBImage (env : SGDBEnv) (game : Game) (exts : List String)
    (filter0 : String) : Except String String :=
  match sgdbTryDimension env game exts filter0 0 with
  | some r => r
  | none =>
    match sgdbTryDimension env game exts filter0 2 with
    | some r => r
    | none => .ok ""

/-! ### IGDB provider (download.go) -/

structure IGDBGame where
  ID : Int
  Cover : Int
  Name : String
deriving Repr, DecidableEq

structure IGDBCover where
  ID : Int
  Image_ID : String
deriving Repr, DecidableEq

/-- Environment of the IGDB provider: the outcome of the two POST requests,
each either a transport error or a body given by its parse result
(none = json.Unmarshal error, which the code maps to a silent miss). -/
structure IGDBEnv where
  gamesReq : Except String (Option (List IGDBGame))
  coversReq : Except String (Option (List IGDBCover))

def igdbImageURL (imageID : String) : String :=
  "https://images.igdb.com/igdb/image/upload/t_720p/" ++ imageID ++ ".jpg"

/-- getIGDBImage: look the game up by name, then fetch the cover image id;
unmarshal failures and absent covers are silent misses (ok ""). -/
def getIGDBImage (env : IGDBEnv) (_gameName : String) : Except String String :=
  match env.gamesReq with
  | .error e => .error e
  | .ok none => .ok ""
  | .ok (some gs) =>
    if gs.length < 1 ∨ (gs.headD ⟨0, 0, ""⟩).Cover = 0 then .ok ""
    else
      match env.coversReq with
      | .error e => .error e
      | .ok none => .ok ""
      | .ok (some cs) =>
        if cs.length ≥ 1 then .ok (igdbImageURL (cs.headD ⟨0, ""⟩).Image_ID)
        else .ok ""

/-! ### Google fallback (download.go) -/

/-- Environment of the Google scrape: the fetch plus regex extraction as one
outcome (the search URL built from the art style dimensions is absorbed into
the environment).  ok none means no pattern matched. -/
structure GoogleEnv where
  result : Except String (Option String)

/-- getGoogleImage: an empty game name is an immediate miss; otherwise the
first matching image URL of the scraped results page, or a miss. -/
def getGoogleImage (env : GoogleEnv) (gameName : String) : Except String String :=
  if gameName = "" then .ok ""
  else
    match env.result with
    | .error e => .error e
    | .ok (some m) => .ok m
    | .ok none => .ok ""

/-! ### The fallback chain (getImageAlternatives, download.go) -/

/-- Environment of the whole chain for one game and art style. -/
structure ChainEnv where
  akamai : HttpFetch
  cdn : HttpFetch
  sgdb : SGDBEnv
  igdb : IGDBEnv
  google : GoogleEnv
  fetchURL : String → HttpFetch

/-- Result of getImageAlternatives, together with flags recording which
providers were consulted (instrumentation of the model; they do not feed
back into the result). -/
structure GIAOut where
  response : Option HttpResponse
  fromSrc : String
  err : Option String
  usedSGDB : Bool
  usedIGDB : Bool
  usedGoogle : Bool
deriving Repr, DecidableEq

/-- Final tryDownload(url) of getImageAlternatives: a success returns the
response with the current provenance, anything else is an overall miss. -/
def giaFinal (env : ChainEnv) (url fromSrc : String)
    (uS uI uG : Bool) : GIAOut :=
  match tryDownload (env.fetchURL url) with
  | .ok (some r) => ⟨some r, fromSrc, none, uS, uI, uG⟩
  | _ => ⟨none, "", none, uS, uI, uG⟩

/-- The Google step of the chain (Banner style only). -/
def giaGoogleStep (env : ChainEnv) (game : Game) (artStyle : String)
    (skipGoogle : Bool) (url fromSrc : String) (uS uI : Bool) : GIAOut :=
  if ¬skipGoogle ∧ artStyle = "Banner" ∧ url = "" then
    match getGoogleImage env.google game.Name with
    | .error e => ⟨none, "search", some e, uS, uI, true⟩
    | .ok url2 => giaFinal env url2 "search" uS uI true
  else giaFinal env url fromSrc uS uI false

/-- The IGDB step of the chain (Cover style only). -/
def giaIGDBStep (env : ChainEnv) (game : Game) (artStyle : String)
    (igdbKey : String) (skipGoogle : Bool) (url fromSrc : String) (uS : Bool) : GIAOut :=
  if artStyle = "Cover" ∧ igdbKey ≠ "" ∧ url = "" then
    match getIGDBImage env.igdb game.Name with
    | .error e => ⟨none, "IGDB", some e, uS, true, false⟩
    | .ok url2 => giaGoogleStep env game artStyle skipGoogle url2 "IGDB" uS true
  else giaGoogleStep env game artStyle skipGoogle url fromSrc uS false

/-- The Steam CDN phase of the chain: primary mirror, then secondary; a
success returns immediately (or aborts with a miss when only missing
artwork is wanted); a miss or error falls through to the later sources. -/
def giaSteamEarly (env : ChainEnv) (skipSteam onlyMissingArtwork : Bool) : Option GIAOut :=
  if skipSteam then none
  else
    match tryDownload env.akamai with
    | .ok (some r) =>
      if onlyMissingArtwork then some ⟨none, "", none, false, false, false⟩
      else some ⟨some r, "steam server", none, false, false, false⟩
    | _ =>
      match tryDownload env.cdn with
      | .ok (some r) =>
        if onlyMissingArtwork then some ⟨none, "", none, false, false, false⟩
        else some ⟨some r, "steam server", none, false, false, false⟩
      | _ => none

/-- getImageAlternatives: Steam CDN mirrors, then SteamGridDB, then IGDB,
then the Google search, with the first successful download returned. -/
def getImageAlternatives (env : ChainEnv) (game : Game) (artStyle : String)
    (exts : List String) (skipSteam : Bool) (apiKey filter0 igdbKey : String)
    (skipGoogle onlyMissingArtwork : Bool) : GIAOut :=
  match giaSteamEarly env skipSteam onlyMissingArtwork with
  | some out => out
  | none =>
    if apiKey ≠ "" then
      match getSteamGridDBImage env.sgdb game exts filter0 with
      | .error e => ⟨none, "SteamGridDB", some e, true, false, false⟩
      | .ok url1 => giaIGDBStep env game artStyle igdbKey skipGoogle url1 "SteamGridDB" true
    else giaIGDBStep env game artStyle igdbKey skipGoogle "" "steam server" false

/-- The Steam CDN phase never consults the later sources. -/
theorem giaSteamEarly_flags (env : ChainEnv) (skipSteam onlyMissing : Bool)
    (out : GIAOut) (h : giaSteamEarly env skipSteam onlyMissing = some out) :
    out.usedSGDB = false ∧ out.usedIGDB = false ∧ out.usedGoogle = false := by
  unfold giaSteamEarly at h
  split at h
  · exact Option.noConfusion h
  · split at h
    · split at h <;> (rw [Option.some.injEq] at h; subst h; exact ⟨rfl, rfl, rfl⟩)
    · split at h
      · split at h <;> (rw [Option.some.injEq] at h; subst h; exact ⟨rfl, rfl, rfl⟩)
      · exact Option.noConfusion h

/-- Result of DownloadImage: the provenance string and error the function
returns, the updated game record, and the chain instrumentation. -/
structure DLOut where
  fromSrc : String
  err : Option String
  game : Game
  chain : GIAOut
deriving Repr

/-- DownloadImage (download.go): run the chain, record the extension from the
Content-Type or URL, decode the body, apply the aspect guard (a Banner with
X < Y or a Cover with X > Y is dropped with a nil error), and on success
store the clean bytes and provenance in the game record. -/
def DownloadImage (env : ChainEnv) (game : Game) (artStyle : String)
    (exts : List String) (skipSteam : Bool) (apiKey filter0 igdbKey : String)
    (skipGoogle onlyMissingArtwork : Bool) : DLOut :=
  let gia := getImageAlternatives env game artStyle exts skipSteam apiKey
    filter0 igdbKey skipGoogle onlyMissingArtwork
  match gia.response with
  | none => ⟨"", gia.err, game, gia⟩
  | some r =>
    if gia.err ≠ none then ⟨"", gia.err, game, gia⟩
    else
      let game1 := { game with ImageExt := computeImageExt r.contentType (filepathExt r.urlPath) }
      match r.decoded with
      | none => ⟨"", some "image: unknown format", game1, gia⟩
      | some (x, y) =>
        if artStyle = "Banner" ∧ x < y then ⟨"", none, game1, gia⟩
        else if artStyle = "Cover" ∧ x > y then ⟨"", none, game1, gia⟩
        else
          ⟨gia.fromSrc, none,
            { game1 with ImageSource := gia.fromSrc, CleanImageBytes := some r.body }, gia⟩

/-! ### Backup manager (backup.go) -/

/-- getBackupPath (backup.go): gridDir/originals/&lt;ID&gt;&lt;idSuffix&gt;
space hex(sha256(OverlayImageBytes)) plus the image extension.  The sha256
hex digest is an external pure function, passed in as `hash`; a nil overlay
slice hashes like the empty slice. -/
def getBackupPath (hash : Bytes → String) (gridDir : String) (game : Game)
    (exts : List String) : String :=
  joinPath (joinPath gridDir "originals")
    (game.ID ++ exts.getD 0 "" ++ " " ++ hash (game.OverlayImageBytes.getD []) ++ game.ImageExt)

/-- Result of backupGame: the filesystem afterwards, the returned error, and
the number of filesystem write operations the call performed. -/
structure BackupOut where
  fs : FS
  err : Option String
  writes : Nat
deriving Repr, DecidableEq

/-- backupGame (backup.go): when the game holds clean bytes, write them to
the hash-derived backup path unconditionally (there is no existence check);
otherwise do nothing.  `writeFails` supplies the WriteFile outcome per path. -/
def backupGame (hash : Bytes → String) (writeFails : String → Bool)
    (gridDir : String) (game : Game) (exts : List String) (fs : FS) : BackupOut :=
  match game.CleanImageBytes with
  | some cb =>
    let p := getBackupPath hash gridDir game exts
    if writeFails p then ⟨fs, some ("open " ++ p ++ ": permission denied"), 1⟩
    else ⟨writeFS fs p cb, none, 1⟩
  | none => ⟨fs, none, 0⟩

/-! ### Overlay compositor (overlays.go) -/

/-- One frame of a decoded animated WEBP.  Timestamp is the Go int timestamp
reported by the decoder; w, h and isRGBA describe the frame image (whether
the decoder produced an RGBA image that the code reuses directly). -/
structure WebpFrame where
  Timestamp : Int
  w : Nat
  h : Nat
  isRGBA : Bool
deriving Repr, DecidableEq

/-- Decoded animated WEBP header info plus the frame stream that
GetNextFrame yields. -/
structure WebpInfo where
  Width : Nat
  Height : Nat
  LoopCount : Nat
  FrameCnt : Nat
  frames : List WebpFrame
deriving Repr, DecidableEq

/-- apng.DISPOSE_OP_NONE -/
def disposeOpNone : Nat := 0

/-- apng.BLEND_OP_OVER -/
def blendOpOver : Nat := 1

/-- One APNG frame reduced to the metadata the code reads and writes
(the pixel content is kept as the frame dimensions). -/
structure ApngFrame where
  width : Nat
  height : Nat
  XOffset : Int
  YOffset : Int
  DisposeOp : Nat
  BlendOp : Nat
  DelayNumerator : Nat
  DelayDenominator : Nat
deriving Repr, DecidableEq

/-- What the frame-by-frame APNG encoder receives on the shared buffer:
InitializeEncoding writes a header, EncodeFrame a frame, Finish a trailer. -/
inductive ApngChunk where
  | header (declaredFrames loopCount : Nat)
  | frame (f : ApngFrame)
  | finish
deriving Repr, DecidableEq

/-- What the final encoding stage produced into the output buffer. -/
inductive EncodedOut where
  | streamBuf (chunks : List ApngChunk)
  | jpegOut (w h : Nat)
  | apngOut (frames : List ApngFrame)
  | pngOut (w h : Nat)
  | webpAnimOut (w h loopCount : Nat) (stamps : List Int)
  | emptyOut
deriving Repr, DecidableEq

/-- The game record as ApplyOverlay sees it: tags, extension, clean bytes,
and the composited output (none until the final assignment). -/
structure GameO where
  Tags : List String
  ImageExt : String
  CleanImageBytes : Option Bytes
  OverlayImageBytes : Option EncodedOut
deriving Repr, DecidableEq

/-- strings.TrimRight(s, "s"): drop every trailing letter s. -/
def trimRightS (s : String) : String :=
  String.mk ((s.data.reverse.dropWhile (fun c => c = 's')).reverse)

/-- strings.ToLower, written over the character list. -/
def toLowerStr (s : String) : String := String.mk (s.data.map Char.toLower)

/-- strings.Replace(s, c, r, -1) for one-character pattern and
replacement. -/
def replaceChar (s : String) (c r : Char) : String :=
  String.mk (s.data.map (fun x => if x = c then r else x))

/-- Tag normalization of ApplyOverlay: lower-case, trim trailing plural s,
and replace the path-hostile characters with a dash. -/
def normalizeTag (tag : String) : String :=
  let t := trimRightS (toLowerStr tag)
  replaceChar (replaceChar (replaceChar t '<' '-') '>' '-') '/' '-'

/-- Overlay catalog: overlay name to the overlay image dimensions. -/
abbrev Overlays := List (String × (Nat × Nat))

def lookupOverlay (ovs : Overlays) (k : String) : Option (Nat × Nat) :=
  match ovs.find? (fun e => e.1 == k) with
  | some e => some e.2
  | none => none

/-- Does the needle occur as a contiguous run of the haystack list? -/
def containsList (t : List Char) : List Char → Bool
  | [] => t.isEmpty
  | x :: xs => List.isPrefixOf t (x :: xs) || containsList t xs

/-- strings.Contains(s, t). -/
def containsSub (s t : String) : Bool := containsList t.data s.data

/-- The convertWebpToApng recomputation at the top of ApplyOverlay,
with the Go operator precedence kept as written:
a or (b and contains(ext1, "cover")) or contains(ext1, "banner"). -/
def effectiveConvert (convert coversBanners : Bool) (ext1 : String) : Bool :=
  convert || (coversBanners && containsSub ext1 "cover") || containsSub ext1 "banner"

/-- The memory gate of ApplyOverlay for an animated WEBP: memNeeded is
width times height times 4 times FrameCnt in uint64 arithmetic; over budget
disables the conversion, over half budget triggers debug.FreeOSMemory.
Returns (convertWebpToApng afterwards, whether FreeOSMemory ran). -/
def webpMemGate (convert : Bool) (maxMem : Nat) (info : WebpInfo) : Bool × Bool :=
  let memNeeded := (info.Width * info.Height * 4 * info.FrameCnt) % (2 ^ 64)
  if convert ∧ maxMem > 0 then
    if memNeeded > maxMem then (false, false)
    else if memNeeded > maxMem / 2 then (convert, true)
    else (convert, false)
  else (convert, false)

/-- The delay computation of the WEBP to APNG conversion loops: frame 0 gets
delay 0, frame i gets uint16(Timestamp_i - Timestamp_(i-1)) (the Go int to
uint16 conversion keeps the low 16 bits, that is, the value mod 2^16). -/
def webpToApngFrames (info : WebpInfo) : Nat → Int → List WebpFrame → List ApngFrame
  | _, _, [] => []
  | i, last, f :: rest =>
    let delay : Nat := if i = 0 then 0 else ((f.Timestamp - last) % (65536 : Int)).toNat
    { width := if f.isRGBA then f.w else info.Width,
      height := if f.isRGBA then f.h else info.Height,
      XOffset := 0, YOffset := 0,
      DisposeOp := disposeOpNone, BlendOp := blendOpOver,
      DelayNumerator := delay, DelayDenominator := 1000 }
      :: webpToApngFrames info (i + 1) f.Timestamp rest

/-- The chunk block one conversion pass appends to the shared buffer:
header, the converted frames, trailer. -/
def webpConvChunks (info : WebpInfo) (frames : List WebpFrame) : List ApngChunk :=
  ApngChunk.header info.FrameCnt info.LoopCount
    :: (webpToApngFrames info 0 0 frames).map ApngChunk.frame
    ++ [ApngChunk.finish]

/-- Mutable state threaded through the tag loop of ApplyOverlay. -/
structure OvState where
  applied : Bool
  gameImage : Option (Nat × Nat)
  apngFrames : List ApngFrame
  webpRemaining : List WebpFrame
  buf : List ApngChunk
  bufReady : Bool
  errBuff : Option String
  webpAnimStamps : Option (List Int)
  err : Option String
deriving Repr, DecidableEq

/-- One iteration of the tag loop of ApplyOverlay.  A tag without a matching
overlay is skipped.  The APNG branch rewrites every frame to a full
composited frame (offsets zeroed, blend over).  The WEBP branch consumes
the remaining decoder frames, encoding them either through the APNG
frame-by-frame encoder on the shared buffer or through a fresh WEBP
animation encoder.  The static branch replaces the image with one of the
overlay dimensions.  Pixel blending itself is external and not observable
in this model. -/
def overlayTagStep (ovs : Overlays) (ext1 : String) (isApng isWebp : Bool)
    (info? : Option WebpInfo) (conv : Bool) (st : OvState) (tag : String) : OvState :=
  match lookupOverlay ovs (normalizeTag tag ++ ext1) with
  | none => st
  | some ovDims =>
    if isApng then
      let origin := st.apngFrames.headD
        ⟨0, 0, 0, 0, disposeOpNone, blendOpOver, 0, 1000⟩
      { st with
        applied := true,
        apngFrames := st.apngFrames.map (fun f =>
          { f with width := origin.width, height := origin.height,
                   XOffset := 0, YOffset := 0, BlendOp := blendOpOver }) }
    else if isWebp then
      match info? with
      | none => st
      | some info =>
        if conv then
          { st with
            applied := true,
            bufReady := true,
            buf := st.buf ++ webpConvChunks info st.webpRemaining,
            webpRemaining := [],
            errBuff := none }
        else
          { st with
            applied := true,
            webpAnimStamps := some (st.webpRemaining.map (fun f => f.Timestamp)),
            webpRemaining := [] }
    else
      { st with applied := true, gameImage := some ovDims }

/-- The post-loop stage of ApplyOverlay: the no-overlay WEBP to APNG
conversion, the encoder selection, and the final assignment of
OverlayImageBytes. -/
structure OverlayOut where
  err : Option String
  game : GameO
  freedMem : Bool
  convertFinal : Bool
deriving Repr, DecidableEq

/-- The encoder selection of ApplyOverlay (lines 536 to 548): the streamed
buffer when the frame-by-frame encoder ran, otherwise by extension and
detected format. -/
def overlayEncode (game : GameO) (formatFound isApng isWebp conv : Bool)
    (info? : Option WebpInfo) (st1 : OvState) : Option String × EncodedOut :=
  let dims := st1.gameImage.getD (0, 0)
  if st1.bufReady then (st1.errBuff, .streamBuf st1.buf)
  else if game.ImageExt = ".jpg" ∨ game.ImageExt = ".jpeg" then
    (none, .jpegOut dims.1 dims.2)
  else if (game.ImageExt = ".png" ∧ isApng) ∨ (isWebp ∧ conv) then
    (none, .apngOut st1.apngFrames)
  else if (game.ImageExt = ".png" ∧ ¬isWebp) ∨ (formatFound ∧ ¬isWebp) then
    (none, .pngOut dims.1 dims.2)
  else if isWebp then
    match info? with
    | some info =>
      (none, .webpAnimOut info.Width info.Height info.LoopCount
        (st1.webpAnimStamps.getD []))
    | none => (none, .emptyOut)
  else (st1.err, .emptyOut)

/-- The final return of ApplyOverlay: propagate an encoder error without
touching the game, otherwise store the encoded buffer in
OverlayImageBytes. -/
def overlayFinish (game : GameO) (freed conv : Bool)
    (x : Option String × EncodedOut) : OverlayOut :=
  match x.1 with
  | some e => ⟨some e, game, freed, conv⟩
  | none => ⟨none, { game with OverlayImageBytes := some x.2 }, freed, conv⟩

/-- Everything of ApplyOverlay after the format detection: the tag loop,
the not-applied early returns (including the forced WEBP to APNG conversion
without overlay), the encoder selection, and the final assignment. -/
def overlayMain (ovs : Overlays) (ext1 : String) (game : GameO)
    (formatFound isApng isWebp : Bool) (info? : Option WebpInfo)
    (conv freed : Bool) (st0 : OvState) : OverlayOut :=
  let st := game.Tags.foldl (overlayTagStep ovs ext1 isApng isWebp info? conv) st0
  let afterApply : Option OvState :=
    if st.applied then some st
    else if isWebp ∧ conv then
      match info? with
      | none => none
      | some info =>
        some { st with
          applied := true,
          bufReady := true,
          buf := st.buf ++ webpConvChunks info st.webpRemaining,
          webpRemaining := [],
          errBuff := none }
    else none
  match afterApply with
  | none => ⟨none, game, freed, conv⟩
  | some st1 => overlayFinish game freed conv (overlayEncode game formatFound isApng isWebp conv info? st1)

/-- ApplyOverlay (overlays.go).  The three decode attempts (webpanimation
GetInfo, apng.DecodeAll, image.Decode) are oracles from the clean bytes to
their library results, tried in the order of the code.  Early exit when
there are no clean bytes or no tags.  An animated WEBP runs the memory gate
before the tag loop. -/
def ApplyOverlay (getInfo : Bytes → Option WebpInfo)
    (apngDecodeAll : Bytes → Option (List ApngFrame))
    (imageDecode : Bytes → Option (Nat × Nat))
    (game : GameO) (ovs : Overlays) (exts : List String)
    (convertWebpToApng convertWebpToApngCoversBanners : Bool)
    (maxMem : Nat) : OverlayOut :=
  if game.CleanImageBytes = none ∨ game.Tags = [] then
    ⟨none, game, false, convertWebpToApng⟩
  else
    let cb := game.CleanImageBytes.getD []
    let ext1 := exts.getD 1 ""
    let conv0 := effectiveConvert convertWebpToApng convertWebpToApngCoversBanners ext1
    let st0 : OvState :=
      ⟨false, none, [], [], [], false, none, none, none⟩
    match getInfo cb with
    | some info =>
      if info.FrameCnt ≤ 1 then
        match info.frames.head? with
        | some f =>
          overlayMain ovs ext1 game true false false none conv0 false
            { st0 with gameImage := some (f.w, f.h) }
        | none =>
          overlayMain ovs ext1 game true false false none conv0 false
            { st0 with err := some "cant get the first frame of single-frame WEBP image" }
      else
        let gate := webpMemGate conv0 maxMem info
        overlayMain ovs ext1 game true false true (some info) gate.1 gate.2
          { st0 with webpRemaining := info.frames }
    | none =>
      match apngDecodeAll cb with
      | some frames =>
        if frames.length > 1 then
          overlayMain ovs ext1 game false true false none conv0 false
            { st0 with apngFrames := frames }
        else
          let f0 := frames.headD ⟨0, 0, 0, 0, disposeOpNone, blendOpOver, 0, 1000⟩
          overlayMain ovs ext1 game false false false none conv0 false
            { st0 with gameImage := some (f0.width, f0.height) }
      | none =>
        match imageDecode cb with
        | some dims =>
          overlayMain ovs ext1 game false false false none conv0 false
            { st0 with gameImage := some dims }
        | none => ⟨some "image: unknown format", game, false, conv0⟩

/-! ### The processing loop of startApplication (steamgrid.go) -/

/-- strconv.ParseUint(s, 10, 64): all-digit strings below 2^64. -/
def parseUint64 (s : String) : Option Nat :=
  match s.toNat? with
  | some n => if n < 2 ^ 64 then some n else none
  | none => none

/-- The Big Picture legacy id: (id left-shifted 32 bits, in uint64
arithmetic) bitwise-or 0x02000000.  The low half of the shifted value is
zero, so the bitwise or is addition. -/
def legacyID (id : Nat) : Nat := (id * 4294967296) % (2 ^ 64) + 33554432

/-- A filesystem operation the loop performs, in order. -/
inductive FsEvent where
  | del (p : String)
  | writeOk (p : String) (b : Bytes)
  | writeFail (p : String)
deriving Repr, DecidableEq

/-- Per-run configuration (flags of startApplication). -/
structure RunConfig where
  gridDir : String
  skipSteam : Bool
  skipGoogle : Bool
  onlyMissingArtwork : Bool
  filter0 : String
  igdbKey : String

/-- Environment of one (game, art style) iteration: the download chain, the
outcome of loadExisting (the recovered source name, extension and bytes, if
any), the glob results removeExisting deletes (current images first, then
backups), the observable outcome of the composited ApplyOverlay call, the
per-path WriteFile outcomes, and the hash function for backup paths. -/
structure PairEnv where
  chain : ChainEnv
  loadResult : Option (String × String × Bytes)
  existingImages : List String
  existingBackups : List String
  overlayErr : Option String
  overlayBytes : Option Bytes
  writeFails : String → Bool
  hash : Bytes → String

/-- The mutable state of the run: the SteamGridDB key (cleared for the rest
of the run on an auth failure), the filesystem, and whether errorAndExit
was reached. -/
structure RunState where
  apiKey : String
  fs : FS
  aborted : Bool
deriving Repr, DecidableEq

/-- Observable outputs of one (game, art style) iteration. -/
structure IterOut where
  events : List FsEvent
  notFound : Bool
  backupFailed : Bool
  artworkFailed : Bool
  usedSGDB : Bool
  usedGoogle : Bool
  downloadErr : Option String
  finalGame : Game
deriving Repr

/-- The per-iteration field reset at the top of the art style loop. -/
def resetGame (g : Game) : Game :=
  { g with ImageSource := "", ImageExt := "", CleanImageBytes := none,
           OverlayImageBytes := none }

/-- The observable effect of loadExisting on the game record. -/
def applyLoadExisting (env : PairEnv) (g : Game) : Game :=
  match env.loadResult with
  | none => g
  | some (src, ext, b) =>
    { g with ImageSource := src, ImageExt := ext, CleanImageBytes := some b }

/-- Result of the save phase (backupGame plus the artwork writes). -/
structure SaveOut where
  fs : FS
  events : List FsEvent
  aborted : Bool
  backupFailed : Bool
  artworkFailed : Bool
deriving Repr, DecidableEq

/-- The artwork writes of the save phase: the canonical image path, then for
Banner a legacy Big Picture copy when the game id parses as uint64.  A
failure of the canonical write is reported (printed); a failure of the
legacy write is silently dropped (the Go variable holding it is shadowed). -/
def artworkWrites (env : PairEnv) (cfg : RunConfig) (exts : List String)
    (artStyle : String) (fs : FS) (g : Game) : FS × List FsEvent × Bool :=
  let imagePath := joinPath cfg.gridDir (g.ID ++ exts.getD 0 "" ++ g.ImageExt)
  let ob := g.OverlayImageBytes.getD []
  let (fs1, ev1, mainFail) :=
    if env.writeFails imagePath then (fs, [FsEvent.writeFail imagePath], true)
    else (writeFS fs imagePath ob, [FsEvent.writeOk imagePath ob], false)
  let (fs2, ev2) :=
    if artStyle = "Banner" then
      match parseUint64 g.ID with
      | some id =>
        let legacyPath :=
          joinPath cfg.gridDir (toString (legacyID id) ++ exts.getD 0 "" ++ g.ImageExt)
        if env.writeFails legacyPath then (fs1, [FsEvent.writeFail legacyPath])
        else (writeFS fs1 legacyPath ob, [FsEvent.writeOk legacyPath ob])
      | none => (fs1, ([] : List FsEvent))
    else (fs1, ([] : List FsEvent))
  (fs2, ev1 ++ ev2, mainFail)

/-- The save phase of one iteration: backupGame first; a backup write
failure reaches errorAndExit (the run aborts and the artwork is never
written); otherwise the artwork writes follow. -/
def savePhase (env : PairEnv) (cfg : RunConfig) (exts : List String)
    (artStyle : String) (fs : FS) (g : Game) : SaveOut :=
  match g.CleanImageBytes with
  | some cb =>
    let bPath := getBackupPath env.hash cfg.gridDir g exts
    if env.writeFails bPath then
      ⟨fs, [FsEvent.writeFail bPath], true, true, false⟩
    else
      let fs1 := writeFS fs bPath cb
      let a := artworkWrites env cfg exts artStyle fs1 g
      ⟨a.1, FsEvent.writeOk bPath cb :: a.2.1, false, false, a.2.2⟩
  | none =>
    let a := artworkWrites env cfg exts artStyle fs g
    ⟨a.1, a.2.1, false, false, a.2.2⟩

/-- The effect of the ApplyOverlay call plus the fallback at lines 240 to
244 of steamgrid.go: store the composited bytes the environment reports,
and fall back to the clean bytes when no overlay was applied. -/
def overlayAdjust (env : PairEnv) (g : Game) : Game :=
  let g3 := { g with OverlayImageBytes := env.overlayBytes }
  if g3.OverlayImageBytes = none then
    { g3 with OverlayImageBytes := g3.CleanImageBytes }
  else g3

/-- The tail of one iteration after an image was obtained: the ApplyOverlay
call (whose observable outcome the environment supplies), the fallback of
OverlayImageBytes to CleanImageBytes, and the save phase. -/
def processRest (cfg : RunConfig) (env : PairEnv) (st : RunState) (g : Game)
    (artStyle : String) (exts : List String) (dels : List FsEvent)
    (uS uG : Bool) (dlErr : Option String) : RunState × IterOut :=
  let g4 := overlayAdjust env g
  let sv := savePhase env cfg exts artStyle st.fs g4
  (⟨st.apiKey, sv.fs, st.aborted || sv.aborted⟩,
   ⟨dels ++ sv.events, false, sv.backupFailed, sv.artworkFailed, uS, uG, dlErr, g4⟩)

/-- One (game, art style) iteration of the loop in startApplication:
reset, loadExisting, removeExisting, DownloadImage when nothing was
recovered (an auth-invalid error clears the SteamGridDB key for the rest of
the run; a still-missing image is recorded as not found and the iteration
stops there), then overlay and save. -/
def processPair (cfg : RunConfig) (env : PairEnv) (st : RunState) (game : Game)
    (artStyle : String) (exts : List String) : RunState × IterOut :=
  let g1 := applyLoadExisting env (resetGame game)
  let delPaths := env.existingImages ++ env.existingBackups
  let dels := delPaths.map FsEvent.del
  let fs1 := removeAllFS st.fs delPaths
  if g1.ImageSource = "" then
    let dl := DownloadImage env.chain g1 artStyle exts cfg.skipSteam st.apiKey
      cfg.filter0 cfg.igdbKey cfg.skipGoogle cfg.onlyMissingArtwork
    let apiKey1 := if dl.err = some authInvalidMsg then "" else st.apiKey
    if dl.game.ImageSource = "" then
      (⟨apiKey1, fs1, st.aborted⟩,
       ⟨dels, true, false, false, dl.chain.usedSGDB, dl.chain.usedGoogle, dl.err, dl.game⟩)
    else
      processRest cfg env ⟨apiKey1, fs1, st.aborted⟩ dl.game artStyle exts dels
        dl.chain.usedSGDB dl.chain.usedGoogle dl.err
  else
    processRest cfg env ⟨st.apiKey, fs1, st.aborted⟩ g1 artStyle exts dels
      false false none

/-- One unit of work of the run: its environment, game, art style and art
style extension list. -/
structure PairInput where
  env : PairEnv
  game : Game
  artStyle : String
  exts : List String

/-- The run over a list of (game, art style) units.  errorAndExit inside an
iteration terminates the run: the remaining units are never processed. -/
def runPairs (cfg : RunConfig) : List PairInput → RunState → RunState × List IterOut
  | [], st => (st, [])
  | p :: rest, st =>
    let r := processPair cfg p.env st p.game p.artStyle p.exts
    if r.1.aborted then (r.1, [r.2])
    else
      let r2 := runPairs cfg rest r.1
      (r2.1, r.2 :: r2.2)

/-! ## Helper lemmas -/

theorem lookupFS_writeFS_self (fs : FS) (p : String) (b : Bytes)
    (h : lookupFS fs p = some b) : writeFS fs p b = fs := by
  induction fs with
  | nil => simp [lookupFS] at h
  | cons e rest ih =>
    obtain ⟨q, c⟩ := e
    by_cases hq : q = p
    · subst hq
      simp [lookupFS] at h
      simp [writeFS, h]
    · simp only [lookupFS, if_neg hq] at h
      simp [writeFS, hq, ih h]

/-- The frames a chunk list carries (what an APNG reader would see as the
frame sequence of the emitted stream). -/
def streamFrames (cs : List ApngChunk) : List ApngFrame :=
  cs.filterMap (fun c => match c with | .frame f => some f | _ => none)

/-- The delay numerators of a frame sequence. -/
def apngDelaysOf (fs : List ApngFrame) : List Nat :=
  fs.map (fun f => f.DelayNumerator)

theorem streamFrames_append (a b : List ApngChunk) :
    streamFrames (a ++ b) = streamFrames a ++ streamFrames b := by
  simp [streamFrames]

theorem streamFrames_webpConvChunks (info : WebpInfo) (fs : List WebpFrame) :
    streamFrames (webpConvChunks info fs) = webpToApngFrames info 0 0 fs := by
  have h : ∀ l : List ApngFrame,
      streamFrames (l.map ApngChunk.frame ++ [ApngChunk.finish]) = l := by
    intro l
    induction l with
    | nil => rfl
    | cons a t ih => simpa [streamFrames, List.filterMap_cons] using ih
  simpa [webpConvChunks, streamFrames, List.filterMap_cons] using h (webpToApngFrames info 0 0 fs)

/-- A tag without a matching overlay leaves the loop state unchanged. -/
theorem overlayTagStep_no_match (ovs : Overlays) (ext1 : String)
    (isApng isWebp : Bool) (info? : Option WebpInfo) (conv : Bool)
    (st : OvState) (tag : String)
    (h : lookupOverlay ovs (normalizeTag tag ++ ext1) = none) :
    overlayTagStep ovs ext1 isApng isWebp info? conv st tag = st := by
  simp [overlayTagStep, h]

/-- When no tag has a matching overlay the whole tag loop is the identity. -/
theorem foldl_tagStep_no_match (ovs : Overlays) (ext1 : String)
    (isApng isWebp : Bool) (info? : Option WebpInfo) (conv : Bool)
    (tags : List String) (st : OvState)
    (h : ∀ tag ∈ tags, lookupOverlay ovs (normalizeTag tag ++ ext1) = none) :
    tags.foldl (overlayTagStep ovs ext1 isApng isWebp info? conv) st = st := by
  induction tags with
  | nil => rfl
  | cons t ts ih =>
    simp only [List.foldl_cons]
    rw [overlayTagStep_no_match ovs ext1 isApng isWebp info? conv st t
      (h t (List.mem_cons_self t ts))]
    exact ih (fun tag htag => h tag (List.mem_cons_of_mem t htag))

/-- The memory gate never turns the conversion on. -/
theorem webpMemGate_false (maxMem : Nat) (info : WebpInfo) :
    webpMemGate false maxMem info = (false, false) := by
  simp [webpMemGate]

/-- When no overlay matches any tag and the forced conversion is off (either
the image is not an animated WEBP or the conversion flag is false after the
gate), the compositor returns the game record unchanged with a nil error. -/
theorem overlayMain_no_match (ovs : Overlays) (ext1 : String) (game : GameO)
    (formatFound isApng isWebp : Bool) (info? : Option WebpInfo)
    (conv freed : Bool) (st0 : OvState)
    (happ : st0.applied = false)
    (hnm : ∀ tag ∈ game.Tags, lookupOverlay ovs (normalizeTag tag ++ ext1) = none)
    (hcv : isWebp = false ∨ conv = false) :
    overlayMain ovs ext1 game formatFound isApng isWebp info? conv freed st0
      = ⟨none, game, freed, conv⟩ := by
  unfold overlayMain
  rw [foldl_tagStep_no_match ovs ext1 isApng isWebp info? conv game.Tags st0 hnm]
  rcases hcv with h | h <;> simp [happ, h]

/-- The tag loop never touches bufReady while the conversion is off. -/
theorem overlayTagStep_bufReady (ovs : Overlays) (ext1 : String) (isApng : Bool)
    (info? : Option WebpInfo) (st : OvState) (tag : String) :
    (overlayTagStep ovs ext1 isApng true info? false st tag).bufReady = st.bufReady := by
  unfold overlayTagStep
  cases lookupOverlay ovs (normalizeTag tag ++ ext1) with
  | none => rfl
  | some d =>
    cases isApng with
    | true => rfl
    | false =>
      cases info? with
      | none => rfl
      | some info => rfl

theorem foldl_tagStep_bufReady (ovs : Overlays) (ext1 : String) (isApng : Bool)
    (info? : Option WebpInfo) (tags : List String) (st : OvState) :
    (tags.foldl (overlayTagStep ovs ext1 isApng true info? false) st).bufReady
      = st.bufReady := by
  induction tags generalizing st with
  | nil => rfl
  | cons t ts ih =>
    simp only [List.foldl_cons]
    rw [ih, overlayTagStep_bufReady]

theorem overlayFinish_flags (game : GameO) (freed conv : Bool)
    (x : Option String × EncodedOut) :
    (overlayFinish game freed conv x).convertFinal = conv
    ∧ (overlayFinish game freed conv x).freedMem = freed := by
  obtain ⟨e, o⟩ := x
  cases e <;> exact ⟨rfl, rfl⟩

/-- overlayMain forwards the gate outputs unchanged. -/
theorem overlayMain_flags (ovs : Overlays) (ext1 : String) (game : GameO)
    (ff isApng isWebp : Bool) (info? : Option WebpInfo) (conv freed : Bool)
    (st0 : OvState) :
    (overlayMain ovs ext1 game ff isApng isWebp info? conv freed st0).convertFinal = conv
    ∧ (overlayMain ovs ext1 game ff isApng isWebp info? conv freed st0).freedMem = freed := by
  unfold overlayMain
  dsimp only
  split
  · exact ⟨rfl, rfl⟩
  · exact overlayFinish_flags game freed conv _

/-- With the streamed buffer not initialized, the selected encoder output is
never the streamed buffer. -/
theorem overlayEncode_not_stream (game : GameO) (ff isApng isWebp conv : Bool)
    (info? : Option WebpInfo) (st1 : OvState)
    (hb : st1.bufReady = false) :
    ∀ cs, (overlayEncode game ff isApng isWebp conv info? st1).2
        ≠ EncodedOut.streamBuf cs := by
  intro cs
  unfold overlayEncode
  simp only [hb, Bool.false_eq_true, if_false]
  split
  · intro h; cases h
  · split
    · intro h; cases h
    · split
      · intro h; cases h
      · split
        · cases info? with
          | some info => intro h; cases h
          | none => intro h; cases h
        · intro h; cases h

/-- With the conversion off, the result of the compositor is never the
streamed APNG buffer (the stream encoder is only initialized on the
conversion paths). -/
theorem overlayMain_not_stream (ovs : Overlays) (ext1 : String) (game : GameO)
    (ff isApng : Bool) (info? : Option WebpInfo) (freed : Bool) (st0 : OvState)
    (hb : st0.bufReady = false)
    (hov : game.OverlayImageBytes = none) :
    ∀ cs, (overlayMain ovs ext1 game ff isApng true info? false freed st0).game.OverlayImageBytes
        ≠ some (EncodedOut.streamBuf cs) := by
  intro cs heq
  unfold overlayMain at heq
  dsimp only at heq
  have hfold : (game.Tags.foldl (overlayTagStep ovs ext1 isApng true info? false) st0).bufReady
      = false := by rw [foldl_tagStep_bufReady]; exact hb
  set st := game.Tags.foldl (overlayTagStep ovs ext1 isApng true info? false) st0 with hst
  by_cases ha : st.applied = true
  · simp only [ha, if_true] at heq
    rcases he : overlayEncode game ff isApng true false info? st with ⟨e1, o⟩
    rw [he] at heq
    have ho : o ≠ EncodedOut.streamBuf cs := by
      have := overlayEncode_not_stream game ff isApng true false info? st hfold cs
      rw [he] at this
      exact this
    cases e1 with
    | none =>
      simp only [overlayFinish] at heq
      rw [Option.some.injEq] at heq
      exact ho heq
    | some e =>
      simp only [overlayFinish] at heq
      rw [hov] at heq
      cases heq
  · simp only [ha, if_false, Bool.not_eq_true] at heq
    simp only [Bool.false_eq_true, false_and, and_false, if_false] at heq
    simp [hov] at heq

/-- The per-frame delays the spec expects when no uint16 truncation occurs:
Timestamp minus the previous timestamp, frame by frame. -/
def specDelaysFrom (last : Int) : List WebpFrame → List Nat
  | [] => []
  | f :: rest => (f.Timestamp - last).toNat :: specDelaysFrom f.Timestamp rest

/-- Timestamps are nondecreasing and every step fits in a uint16
(below 65536 milliseconds). -/
def boundedFrom (last : Int) : List WebpFrame → Bool
  | [] => true
  | f :: rest =>
    (decide (last ≤ f.Timestamp) && decide (f.Timestamp - last < 65536))
      && boundedFrom f.Timestamp rest

theorem webpToApngFrames_length (info : WebpInfo) :
    ∀ (fs : List WebpFrame) (i : Nat) (last : Int),
      (webpToApngFrames info i last fs).length = fs.length := by
  intro fs
  induction fs with
  | nil => intro i last; rfl
  | cons f rest ih =>
    intro i last
    simp only [webpToApngFrames, List.length_cons, ih]

/-- Away from the first frame, the encoded delays are exactly the timestamp
differences whenever each difference is nonnegative and below 65536. -/
theorem webpToApngFrames_delays_bounded (info : WebpInfo) :
    ∀ (fs : List WebpFrame) (last : Int) (j : Nat),
      boundedFrom last fs = true →
      apngDelaysOf (webpToApngFrames info (j + 1) last fs) = specDelaysFrom last fs := by
  intro fs
  induction fs with
  | nil => intro last j _; rfl
  | cons f rest ih =>
    intro last j h
    simp only [boundedFrom, Bool.and_eq_true, decide_eq_true_eq] at h
    obtain ⟨⟨h1, h2⟩, h3⟩ := h
    simp only [webpToApngFrames, apngDelaysOf, List.map_cons, if_neg (Nat.succ_ne_zero j),
      specDelaysFrom]
    rw [Int.emod_eq_of_lt (by omega) (by omega)]
    exact congrArg _ (ih f.Timestamp (j + 1) h3)

/-- The full delay sequence: frame 0 is re-based to delay 0 and every later
frame keeps its timestamp difference. -/
theorem webpToApngFrames_delays_head (info : WebpInfo) (f0 : WebpFrame)
    (rest : List WebpFrame) (h : boundedFrom f0.Timestamp rest = true) :
    apngDelaysOf (webpToApngFrames info 0 0 (f0 :: rest))
      = 0 :: specDelaysFrom f0.Timestamp rest := by
  simp only [webpToApngFrames, apngDelaysOf, List.map_cons, if_pos rfl]
  exact congrArg _ (webpToApngFrames_delays_bounded info rest f0.Timestamp 0 h)

/-- One tag step preserves the finished-conversion state (a second matching
tag re-initializes the encoder over an exhausted decoder, appending a
header and trailer but no frames). -/
theorem webpConvStep_done (ovs : Overlays) (ext1 : String) (info : WebpInfo)
    (st : OvState) (tag : String)
    (h1 : st.applied = true) (h2 : st.bufReady = true) (h3 : st.webpRemaining = [])
    (h4 : st.errBuff = none) :
    (overlayTagStep ovs ext1 false true (some info) true st tag).applied = true
    ∧ (overlayTagStep ovs ext1 false true (some info) true st tag).bufReady = true
    ∧ (overlayTagStep ovs ext1 false true (some info) true st tag).webpRemaining = []
    ∧ (overlayTagStep ovs ext1 false true (some info) true st tag).errBuff = none
    ∧ streamFrames (overlayTagStep ovs ext1 false true (some info) true st tag).buf
        = streamFrames st.buf := by
  cases hl : lookupOverlay ovs (normalizeTag tag ++ ext1) with
  | none => simp [overlayTagStep, hl, h1, h2, h3, h4]
  | some d =>
    simp [overlayTagStep, hl, h1, h2, h3, h4, streamFrames_append,
      streamFrames_webpConvChunks, webpToApngFrames]

/-- The tag loop preserves the finished-conversion state. -/
theorem webpConvFold_done (ovs : Overlays) (ext1 : String) (info : WebpInfo)
    (tags : List String) :
    ∀ (st : OvState), st.applied = true → st.bufReady = true →
      st.webpRemaining = [] → st.errBuff = none →
      (tags.foldl (overlayTagStep ovs ext1 false true (some info) true) st).applied = true
      ∧ (tags.foldl (overlayTagStep ovs ext1 false true (some info) true) st).bufReady = true
      ∧ (tags.foldl (overlayTagStep ovs ext1 false true (some info) true) st).webpRemaining = []
      ∧ (tags.foldl (overlayTagStep ovs ext1 false true (some info) true) st).errBuff = none
      ∧ streamFrames (tags.foldl (overlayTagStep ovs ext1 false true (some info) true) st).buf
          = streamFrames st.buf := by
  induction tags with
  | nil => intro st h1 h2 h3 h4; exact ⟨h1, h2, h3, h4, rfl⟩
  | cons t ts ih =>
    intro st h1 h2 h3 h4
    simp only [List.foldl_cons]
    obtain ⟨s1, s2, s3, s4, s5⟩ := webpConvStep_done ovs ext1 info st t h1 h2 h3 h4
    obtain ⟨r1, r2, r3, r4, r5⟩ :=
      ih (overlayTagStep ovs ext1 false true (some info) true st t) s1 s2 s3 s4
    exact ⟨r1, r2, r3, r4, r5.trans s5⟩

/-- The tag loop of an animated WEBP with the conversion on: either no tag
matches and the state is untouched, or the buffer holds exactly the
converted input frames. -/
theorem webpConvFold_main (ovs : Overlays) (ext1 : String) (info : WebpInfo)
    (tags : List String) :
    ∀ (st : OvState), st.applied = false → st.buf = [] →
      tags.foldl (overlayTagStep ovs ext1 false true (some info) true) st = st
      ∨ ((tags.foldl (overlayTagStep ovs ext1 false true (some info) true) st).applied = true
        ∧ (tags.foldl (overlayTagStep ovs ext1 false true (some info) true) st).bufReady = true
        ∧ (tags.foldl (overlayTagStep ovs ext1 false true (some info) true) st).errBuff = none
        ∧ streamFrames (tags.foldl (overlayTagStep ovs ext1 false true (some info) true) st).buf
            = webpToApngFrames info 0 0 st.webpRemaining) := by
  induction tags with
  | nil => intro st _ _; exact Or.inl rfl
  | cons t ts ih =>
    intro st happ hbuf
    simp only [List.foldl_cons]
    cases hl : lookupOverlay ovs (normalizeTag t ++ ext1) with
    | none =>
      rw [overlayTagStep_no_match ovs ext1 false true (some info) true st t hl]
      exact ih st happ hbuf
    | some d =>
      have hstep : overlayTagStep ovs ext1 false true (some info) true st t
          = { st with
              applied := true,
              bufReady := true,
              buf := st.buf ++ webpConvChunks info st.webpRemaining,
              webpRemaining := [],
              errBuff := none } := by
        simp [overlayTagStep, hl]
      rw [hstep]
      obtain ⟨r1, r2, r3, r4, r5⟩ := webpConvFold_done ovs ext1 info ts
        { st with
          applied := true,
          bufReady := true,
          buf := st.buf ++ webpConvChunks info st.webpRemaining,
          webpRemaining := [],
          errBuff := none } rfl rfl rfl rfl
      refine Or.inr ⟨r1, r2, r4, ?_⟩
      rw [r5]
      simp only [hbuf, List.nil_append]
      exact streamFrames_webpConvChunks info st.webpRemaining

/-! ### Lemmas about the chain instrumentation -/

theorem giaFinal_fields (env : ChainEnv) (url fromSrc : String) (uS uI uG : Bool) :
    (giaFinal env url fromSrc uS uI uG).usedSGDB = uS
    ∧ (giaFinal env url fromSrc uS uI uG).usedIGDB = uI
    ∧ (giaFinal env url fromSrc uS uI uG).usedGoogle = uG := by
  unfold giaFinal
  rcases tryDownload (env.fetchURL url) with e | o
  · exact ⟨rfl, rfl, rfl⟩
  · cases o with
    | none => exact ⟨rfl, rfl, rfl⟩
    | some r => exact ⟨rfl, rfl, rfl⟩

theorem giaGoogleStep_usedSGDB (env : ChainEnv) (game : Game) (artStyle : String)
    (skipGoogle : Bool) (url fromSrc : String) (uS uI : Bool) :
    (giaGoogleStep env game artStyle skipGoogle url fromSrc uS uI).usedSGDB = uS := by
  unfold giaGoogleStep
  split
  · rcases getGoogleImage env.google game.Name with e | u
    · rfl
    · exact (giaFinal_fields env u "search" uS uI true).1
  · exact (giaFinal_fields env url fromSrc uS uI false).1

theorem giaIGDBStep_usedSGDB (env : ChainEnv) (game : Game) (artStyle : String)
    (igdbKey : String) (skipGoogle : Bool) (url fromSrc : String) (uS : Bool) :
    (giaIGDBStep env game artStyle igdbKey skipGoogle url fromSrc uS).usedSGDB = uS := by
  unfold giaIGDBStep
  split
  · rcases getIGDBImage env.igdb game.Name with e | u
    · rfl
    · exact giaGoogleStep_usedSGDB env game artStyle skipGoogle u "IGDB" uS true
  · exact giaGoogleStep_usedSGDB env game artStyle skipGoogle url fromSrc uS false

/-- Without an api key the SteamGridDB source is never consulted. -/
theorem gia_no_key_usedSGDB (env : ChainEnv) (game : Game) (artStyle : String)
    (exts : List String) (skipSteam : Bool) (filter0 igdbKey : String)
    (skipGoogle onlyMissing : Bool) :
    (getImageAlternatives env game artStyle exts skipSteam "" filter0 igdbKey
      skipGoogle onlyMissing).usedSGDB = false := by
  unfold getImageAlternatives
  cases hse : giaSteamEarly env skipSteam onlyMissing with
  | some out => exact (giaSteamEarly_flags env skipSteam onlyMissing out hse).1
  | none =>
    rw [if_neg (by simp)]
    exact giaIGDBStep_usedSGDB env game artStyle igdbKey skipGoogle "" "steam server" false

theorem giaGoogleStep_cover (env : ChainEnv) (game : Game) (skipGoogle : Bool)
    (url fromSrc : String) (uS uI : Bool) :
    (giaGoogleStep env game "Cover" skipGoogle url fromSrc uS uI).usedGoogle = false := by
  unfold giaGoogleStep
  rw [if_neg (by simp)]
  exact (giaFinal_fields env url fromSrc uS uI false).2.2

theorem giaIGDBStep_cover (env : ChainEnv) (game : Game)
    (igdbKey : String) (skipGoogle : Bool) (url fromSrc : String) (uS : Bool) :
    (giaIGDBStep env game "Cover" igdbKey skipGoogle url fromSrc uS).usedGoogle = false := by
  unfold giaIGDBStep
  split
  · rcases getIGDBImage env.igdb game.Name with e | u
    · rfl
    · exact giaGoogleStep_cover env game skipGoogle u "IGDB" uS true
  · exact giaGoogleStep_cover env game skipGoogle url fromSrc uS false

/-- The Google search is never consulted for the Cover art style. -/
theorem gia_cover_no_google (env : ChainEnv) (game : Game)
    (exts : List String) (skipSteam : Bool) (apiKey filter0 igdbKey : String)
    (skipGoogle onlyMissing : Bool) :
    (getImageAlternatives env game "Cover" exts skipSteam apiKey filter0 igdbKey
      skipGoogle onlyMissing).usedGoogle = false := by
  unfold getImageAlternatives
  cases hse : giaSteamEarly env skipSteam onlyMissing with
  | some out => exact (giaSteamEarly_flags env skipSteam onlyMissing out hse).2.2
  | none =>
    by_cases hk : apiKey ≠ ""
    · rw [if_pos hk]
      cases hsg : getSteamGridDBImage env.sgdb game exts filter0 with
      | error e => rfl
      | ok u => exact giaIGDBStep_cover env game igdbKey skipGoogle u "SteamGridDB" true
    · rw [if_neg hk]
      exact giaIGDBStep_cover env game igdbKey skipGoogle "" "steam server" false

/-- An erroring DownloadImage leaves ImageSource untouched. -/
theorem DownloadImage_err_source (env : ChainEnv) (game : Game) (artStyle : String)
    (exts : List String) (skipSteam : Bool) (apiKey filter0 igdbKey : String)
    (skipGoogle onlyMissing : Bool)
    (herr : (DownloadImage env game artStyle exts skipSteam apiKey filter0 igdbKey
      skipGoogle onlyMissing).err ≠ none) :
    (DownloadImage env game artStyle exts skipSteam apiKey filter0 igdbKey
      skipGoogle onlyMissing).game.ImageSource = game.ImageSource := by
  unfold DownloadImage at herr ⊢
  dsimp only at herr ⊢
  cases hr : (getImageAlternatives env game artStyle exts skipSteam apiKey filter0 igdbKey
      skipGoogle onlyMissing).response with
  | none => rfl
  | some r =>
    rw [hr] at herr
    dsimp only at herr ⊢
    by_cases he : (getImageAlternatives env game artStyle exts skipSteam apiKey filter0 igdbKey
        skipGoogle onlyMissing).err ≠ none
    · rw [if_pos he]
    · rw [if_neg he] at herr ⊢
      cases hd : r.decoded with
      | none => rfl
      | some xy =>
        obtain ⟨x, y⟩ := xy
        rw [hd] at herr
        dsimp only at herr ⊢
        by_cases hb : artStyle = "Banner" ∧ x < y
        · rw [if_pos hb]
        · rw [if_neg hb] at herr ⊢
          by_cases hc : artStyle = "Cover" ∧ x > y
          · rw [if_pos hc]
          · rw [if_neg hc] at herr
            exact absurd rfl herr

/-! ### Lemmas about DownloadImage and the processing loop -/

/-- DownloadImage always reports the chain it ran. -/
theorem DownloadImage_chain (env : ChainEnv) (game : Game) (artStyle : String)
    (exts : List String) (skipSteam : Bool) (apiKey filter0 igdbKey : String)
    (skipGoogle onlyMissing : Bool) :
    (DownloadImage env game artStyle exts skipSteam apiKey filter0 igdbKey
        skipGoogle onlyMissing).chain
      = getImageAlternatives env game artStyle exts skipSteam apiKey filter0 igdbKey
          skipGoogle onlyMissing := by
  unfold DownloadImage
  dsimp only
  cases hr : (getImageAlternatives env game artStyle exts skipSteam apiKey filter0 igdbKey
      skipGoogle onlyMissing).response with
  | none => rfl
  | some r =>
    dsimp only
    by_cases he : (getImageAlternatives env game artStyle exts skipSteam apiKey filter0 igdbKey
        skipGoogle onlyMissing).err ≠ none
    · rw [if_pos he]
    · rw [if_neg he]
      cases hd : r.decoded with
      | none => rfl
      | some xy =>
        obtain ⟨x, y⟩ := xy
        dsimp only
        by_cases hb : artStyle = "Banner" ∧ x < y
        · rw [if_pos hb]
        · rw [if_neg hb]
          by_cases hc : artStyle = "Cover" ∧ x > y
          · rw [if_pos hc]
          · rw [if_neg hc]

/-- When the chain produces no response, DownloadImage passes the chain
error through and leaves the game unchanged. -/
theorem DownloadImage_miss (env : ChainEnv) (game : Game) (artStyle : String)
    (exts : List String) (skipSteam : Bool) (apiKey filter0 igdbKey : String)
    (skipGoogle onlyMissing : Bool)
    (hresp : (getImageAlternatives env game artStyle exts skipSteam apiKey filter0 igdbKey
      skipGoogle onlyMissing).response = none) :
    DownloadImage env game artStyle exts skipSteam apiKey filter0 igdbKey
        skipGoogle onlyMissing
      = ⟨"", (getImageAlternatives env game artStyle exts skipSteam apiKey filter0 igdbKey
            skipGoogle onlyMissing).err, game,
          getImageAlternatives env game artStyle exts skipSteam apiKey filter0 igdbKey
            skipGoogle onlyMissing⟩ := by
  unfold DownloadImage
  dsimp only
  rw [hresp]

/-- The save phase aborts exactly when the backup write failed. -/
theorem savePhase_aborted_eq (env : PairEnv) (cfg : RunConfig) (exts : List String)
    (artStyle : String) (fs : FS) (g : Game) :
    (savePhase env cfg exts artStyle fs g).aborted
      = (savePhase env cfg exts artStyle fs g).backupFailed := by
  unfold savePhase
  cases g.CleanImageBytes with
  | none => rfl
  | some cb =>
    by_cases h : env.writeFails (getBackupPath env.hash cfg.gridDir g exts) <;> simp [h]

/-- The shape of the save phase for a game holding clean bytes: the backup
write happens first; its failure aborts before any artwork write. -/
theorem savePhase_clean_shape (env : PairEnv) (cfg : RunConfig) (exts : List String)
    (artStyle : String) (fs : FS) (g : Game) (cb : Bytes)
    (hc : g.CleanImageBytes = some cb) :
    (env.writeFails (getBackupPath env.hash cfg.gridDir g exts) = false →
      (savePhase env cfg exts artStyle fs g).events
        = FsEvent.writeOk (getBackupPath env.hash cfg.gridDir g exts) cb
            :: (artworkWrites env cfg exts artStyle
                (writeFS fs (getBackupPath env.hash cfg.gridDir g exts) cb) g).2.1
      ∧ (savePhase env cfg exts artStyle fs g).aborted = false)
    ∧ (env.writeFails (getBackupPath env.hash cfg.gridDir g exts) = true →
      (savePhase env cfg exts artStyle fs g).events
          = [FsEvent.writeFail (getBackupPath env.hash cfg.gridDir g exts)]
      ∧ (savePhase env cfg exts artStyle fs g).aborted = true) := by
  unfold savePhase
  rw [hc]
  constructor
  · intro h
    simp [h]
  · intro h
    simp [h]

/-- A definitional restatement of processRest for rewriting. -/
theorem processRest_def (cfg : RunConfig) (env : PairEnv) (st : RunState) (g : Game)
    (artStyle : String) (exts : List String) (dels : List FsEvent)
    (uS uG : Bool) (dlErr : Option String) :
    processRest cfg env st g artStyle exts dels uS uG dlErr
      = (⟨st.apiKey, (savePhase env cfg exts artStyle st.fs (overlayAdjust env g)).fs,
          st.aborted || (savePhase env cfg exts artStyle st.fs (overlayAdjust env g)).aborted⟩,
         ⟨dels ++ (savePhase env cfg exts artStyle st.fs (overlayAdjust env g)).events, false,
          (savePhase env cfg exts artStyle st.fs (overlayAdjust env g)).backupFailed,
          (savePhase env cfg exts artStyle st.fs (overlayAdjust env g)).artworkFailed,
          uS, uG, dlErr, overlayAdjust env g⟩) := rfl

/-- Every run of processPair is either the not-found early exit (only the
removeExisting deletions happened) or a processRest tail on the loaded or
downloaded game. -/
theorem processPair_branches (cfg : RunConfig) (env : PairEnv) (st : RunState)
    (g : Game) (artStyle : String) (exts : List String) :
    ((processPair cfg env st g artStyle exts).2.notFound = true
      ∧ (processPair cfg env st g artStyle exts).2.events
          = (env.existingImages ++ env.existingBackups).map FsEvent.del
      ∧ (processPair cfg env st g artStyle exts).1.aborted = st.aborted
      ∧ (processPair cfg env st g artStyle exts).2.backupFailed = false)
    ∨ (∃ g2 key2 uS uG dlErr,
        processPair cfg env st g artStyle exts
          = processRest cfg env
              ⟨key2, removeAllFS st.fs (env.existingImages ++ env.existingBackups), st.aborted⟩
              g2 artStyle exts
              ((env.existingImages ++ env.existingBackups).map FsEvent.del) uS uG dlErr) := by
  unfold processPair
  dsimp only
  by_cases h1 : (applyLoadExisting env (resetGame g)).ImageSource = ""
  · rw [if_pos h1]
    by_cases h2 : (DownloadImage env.chain (applyLoadExisting env (resetGame g)) artStyle exts
        cfg.skipSteam st.apiKey cfg.filter0 cfg.igdbKey cfg.skipGoogle
        cfg.onlyMissingArtwork).game.ImageSource = ""
    · rw [if_pos h2]
      exact Or.inl ⟨rfl, rfl, rfl, rfl⟩
    · rw [if_neg h2]
      exact Or.inr ⟨_, _, _, _, _, rfl⟩
  · rw [if_neg h1]
    exact Or.inr ⟨_, _, _, _, _, rfl⟩

/-- With an empty api key, one iteration never consults SteamGridDB and the
key stays empty. -/
theorem processPair_no_key (cfg : RunConfig) (env : PairEnv) (st : RunState)
    (g : Game) (artStyle : String) (exts : List String)
    (hkey : st.apiKey = "") :
    (processPair cfg env st g artStyle exts).2.usedSGDB = false
    ∧ (processPair cfg env st g artStyle exts).1.apiKey = "" := by
  unfold processPair
  dsimp only
  rw [hkey]
  by_cases h1 : (applyLoadExisting env (resetGame g)).ImageSource = ""
  · rw [if_pos h1]
    have hs : (DownloadImage env.chain (applyLoadExisting env (resetGame g)) artStyle exts
        cfg.skipSteam "" cfg.filter0 cfg.igdbKey cfg.skipGoogle
        cfg.onlyMissingArtwork).chain.usedSGDB = false := by
      rw [DownloadImage_chain]
      exact gia_no_key_usedSGDB env.chain (applyLoadExisting env (resetGame g)) artStyle exts
        cfg.skipSteam cfg.filter0 cfg.igdbKey cfg.skipGoogle cfg.onlyMissingArtwork
    by_cases h2 : (DownloadImage env.chain (applyLoadExisting env (resetGame g)) artStyle exts
        cfg.skipSteam "" cfg.filter0 cfg.igdbKey cfg.skipGoogle
        cfg.onlyMissingArtwork).game.ImageSource = ""
    · rw [if_pos h2]
      refine ⟨hs, ?_⟩
      dsimp only
      split <;> rfl
    · rw [if_neg h2]
      rw [processRest_def]
      refine ⟨hs, ?_⟩
      dsimp only
      split <;> rfl
  · rw [if_neg h1]
    rw [processRest_def]
    exact ⟨rfl, rfl⟩

/-- With an empty api key, no later iteration of the run consults
SteamGridDB. -/
theorem runPairs_no_key (cfg : RunConfig) (ps : List PairInput) :
    ∀ (st : RunState), st.apiKey = "" →
      ∀ o ∈ (runPairs cfg ps st).2, o.usedSGDB = false := by
  induction ps with
  | nil => intro st _ o ho; simp [runPairs] at ho
  | cons p rest ih =>
    intro st hkey o ho
    obtain ⟨hu, hk⟩ := processPair_no_key cfg p.env st p.game p.artStyle p.exts hkey
    unfold runPairs at ho
    dsimp only at ho
    cases hab : (processPair cfg p.env st p.game p.artStyle p.exts).1.aborted with
    | true =>
      rw [hab, if_pos rfl] at ho
      rw [List.mem_singleton.mp ho]
      exact hu
    | false =>
      rw [hab, if_neg (by simp)] at ho
      rcases List.mem_cons.mp ho with h | h
      · rw [h]; exact hu
      · exact ih (processPair cfg p.env st p.game p.artStyle p.exts).1 hk o h

/-- The final tryDownload of an empty URL cannot succeed (http.Get of an
empty URL always fails in Go), so the chain ends in a miss. -/
theorem giaFinal_empty (env : ChainEnv) (fromSrc : String) (uS uI uG : Bool)
    (hE : ∀ r, tryDownload (env.fetchURL "") ≠ .ok (some r)) :
    giaFinal env "" fromSrc uS uI uG = ⟨none, "", none, uS, uI, uG⟩ := by
  unfold giaFinal
  cases ht : tryDownload (env.fetchURL "") with
  | error e => rfl
  | ok o =>
    cases o with
    | none => rfl
    | some r => exact absurd ht (hE r)

theorem giaGoogleStep_miss (env : ChainEnv) (game : Game) (artStyle : String)
    (skipGoogle : Bool) (fromSrc : String) (uS uI : Bool)
    (hG : getGoogleImage env.google game.Name = .ok "")
    (hE : ∀ r, tryDownload (env.fetchURL "") ≠ .ok (some r)) :
    (giaGoogleStep env game artStyle skipGoogle "" fromSrc uS uI).response = none
    ∧ (giaGoogleStep env game artStyle skipGoogle "" fromSrc uS uI).err = none := by
  unfold giaGoogleStep
  split
  · rw [hG]
    dsimp only
    rw [giaFinal_empty env "search" uS uI true hE]
    exact ⟨rfl, rfl⟩
  · rw [giaFinal_empty env fromSrc uS uI false hE]
    exact ⟨rfl, rfl⟩

theorem giaIGDBStep_miss (env : ChainEnv) (game : Game) (artStyle : String)
    (igdbKey : String) (skipGoogle : Bool) (fromSrc : String) (uS : Bool)
    (hIG : getIGDBImage env.igdb game.Name = .ok "")
    (hG : getGoogleImage env.google game.Name = .ok "")
    (hE : ∀ r, tryDownload (env.fetchURL "") ≠ .ok (some r)) :
    (giaIGDBStep env game artStyle igdbKey skipGoogle "" fromSrc uS).response = none
    ∧ (giaIGDBStep env game artStyle igdbKey skipGoogle "" fromSrc uS).err = none := by
  unfold giaIGDBStep
  split
  · rw [hIG]
    dsimp only
    exact giaGoogleStep_miss env game artStyle skipGoogle "IGDB" uS true hG hE
  · exact giaGoogleStep_miss env game artStyle skipGoogle fromSrc uS false hG hE

/-- The whole chain misses when every provider misses. -/
theorem gia_all_miss (env : ChainEnv) (game : Game) (artStyle : String)
    (exts : List String) (apiKey filter0 igdbKey : String) (skipGoogle : Bool)
    (hA : tryDownload env.akamai = .ok none)
    (hC : tryDownload env.cdn = .ok none)
    (hSG : getSteamGridDBImage env.sgdb game exts filter0 = .ok "")
    (hIG : getIGDBImage env.igdb game.Name = .ok "")
    (hG : getGoogleImage env.google game.Name = .ok "")
    (hE : ∀ r, tryDownload (env.fetchURL "") ≠ .ok (some r)) :
    (getImageAlternatives env game artStyle exts false apiKey filter0 igdbKey
      skipGoogle false).response = none
    ∧ (getImageAlternatives env game artStyle exts false apiKey filter0 igdbKey
      skipGoogle false).err = none := by
  have hse : giaSteamEarly env false false = none := by
    unfold giaSteamEarly
    rw [if_neg (by simp), hA, hC]
  unfold getImageAlternatives
  rw [hse]
  by_cases hk : apiKey ≠ ""
  · rw [if_pos hk, hSG]
    exact giaIGDBStep_miss env game artStyle igdbKey skipGoogle "SteamGridDB" true hIG hG hE
  · rw [if_neg hk]
    exact giaIGDBStep_miss env game artStyle igdbKey skipGoogle "steam server" false hIG hG hE

/-! ## Theorems for the claims -/

/-- Concrete fixtures for the Banner art style. -/
def bannerExts : List String := ["", ".banner", "header.jpg", "920", "430", "460", "215"]

/-- A fresh game record before processing. -/
def game440 : Game := ⟨"440", "TF2", ["action"], "", none, none, "", false⟩

/-- A chain environment in which the primary Steam CDN answers 200 with a
square 100 by 100 image. -/
def envSquare : ChainEnv :=
  { akamai := .resp ⟨200, "image/jpeg", "/steam/apps/440/header.jpg", [7, 7], some (100, 100)⟩,
    cdn := .resp ⟨404, "", "", [], none⟩,
    sgdb := ⟨fun _ => .status 404 ⟨none, none⟩, fun l _ => l⟩,
    igdb := ⟨.ok none, .ok none⟩,
    google := ⟨.ok none⟩,
    fetchURL := fun _ => .netErr "unsupported protocol scheme" }

/-- A chain environment in which the primary Steam CDN answers 200 with a
100 by 200 portrait image while SteamGridDB holds a perfectly sized
landscape banner behind a working URL. -/
def envPortrait : ChainEnv :=
  { envSquare with
    akamai := .resp ⟨200, "image/jpeg", "/steam/apps/440/header.jpg", [5], some (100, 200)⟩,
    sgdb := ⟨fun _ => .status 200 ⟨some ⟨true, ["http://good"]⟩, none⟩, fun l _ => l⟩,
    fetchURL := fun u =>
      if u = "http://good" then .resp ⟨200, "image/png", "", [9], some (460, 215)⟩
      else .netErr "unsupported protocol scheme" }

/-- C1, counterexample.  The claim says a Banner candidate with height at
least its width is rejected and the resolver proceeds to the next source.
Both halves fail on the code: (1) a square 100 by 100 Banner candidate
(height equal to width) is accepted, because the guard uses the strict
comparison X < Y; (2) when a 100 by 200 candidate is rejected, the resolver
returns a miss immediately and never consults the SteamGridDB source even
though it would supply a valid banner. -/
theorem C1_counterexample :
    ((DownloadImage envSquare game440 "Banner" bannerExts false "key" "?f" "" false false).fromSrc
        = "steam server"
      ∧ (DownloadImage envSquare game440 "Banner" bannerExts false "key" "?f" "" false false).game.CleanImageBytes
        = some [7, 7])
    ∧ ((DownloadImage envPortrait game440 "Banner" bannerExts false "key" "?f" "" false false).fromSrc
        = ""
      ∧ (DownloadImage envPortrait game440 "Banner" bannerExts false "key" "?f" "" false false).err
        = none
      ∧ (DownloadImage envPortrait game440 "Banner" bannerExts false "key" "?f" "" false false).game.CleanImageBytes
        = none
      ∧ (DownloadImage envPortrait game440 "Banner" bannerExts false "key" "?f" "" false false).chain.usedSGDB
        = false) := by
  refine ⟨⟨?_, ?_⟩, ?_, ?_, ?_, ?_⟩ <;> decide

/-- C1, amended.  A Banner candidate whose height is strictly greater than
its width (and a Cover candidate whose width is strictly greater than its
height) is dropped with a nil error: resolution for that game and art style
ends in a miss, the clean bytes stay unset, and no further source of the
chain is consulted. -/
theorem C1_strict_guard_terminates
    (env : ChainEnv) (game : Game) (exts : List String)
    (apiKey filter0 igdbKey : String) (r : HttpResponse) (x y : Nat)
    (h1 : tryDownload env.akamai = .ok (some r))
    (h2 : r.decoded = some (x, y)) :
    (x < y →
      (DownloadImage env game "Banner" exts false apiKey filter0 igdbKey false false).fromSrc = ""
      ∧ (DownloadImage env game "Banner" exts false apiKey filter0 igdbKey false false).err = none
      ∧ (DownloadImage env game "Banner" exts false apiKey filter0 igdbKey false false).game.CleanImageBytes
          = game.CleanImageBytes
      ∧ (DownloadImage env game "Banner" exts false apiKey filter0 igdbKey false false).chain.usedSGDB = false
      ∧ (DownloadImage env game "Banner" exts false apiKey filter0 igdbKey false false).chain.usedIGDB = false
      ∧ (DownloadImage env game "Banner" exts false apiKey filter0 igdbKey false false).chain.usedGoogle = false)
    ∧ (x > y →
      (DownloadImage env game "Cover" exts false apiKey filter0 igdbKey false false).fromSrc = ""
      ∧ (DownloadImage env game "Cover" exts false apiKey filter0 igdbKey false false).err = none
      ∧ (DownloadImage env game "Cover" exts false apiKey filter0 igdbKey false false).game.CleanImageBytes
          = game.CleanImageBytes
      ∧ (DownloadImage env game "Cover" exts false apiKey filter0 igdbKey false false).chain.usedSGDB = false) := by
  have hgia : ∀ artStyle,
      getImageAlternatives env game artStyle exts false apiKey filter0 igdbKey false false
        = ⟨some r, "steam server", none, false, false, false⟩ := by
    intro artStyle
    simp only [getImageAlternatives, giaSteamEarly, h1]
    rfl
  constructor
  · intro hxy
    simp only [DownloadImage, hgia, h2]
    simp [hxy]
  · intro hxy
    simp only [DownloadImage, hgia, h2]
    have hnot : ¬ x < y := by omega
    simp [hxy, hnot]

/-- C1, witness for the amended theorem at the portrait environment. -/
theorem C1_witness :
    (DownloadImage envPortrait game440 "Banner" bannerExts false "key" "?f" "" false false).fromSrc = ""
    ∧ (DownloadImage envPortrait game440 "Banner" bannerExts false "key" "?f" "" false false).err = none := by
  have h := C1_strict_guard_terminates envPortrait game440 bannerExts "key" "?f" ""
    ⟨200, "image/jpeg", "/steam/apps/440/header.jpg", [5], some (100, 200)⟩ 100 200
    rfl rfl
  have h2 := h.1 (by omega)
  exact ⟨h2.1, h2.2.1⟩

/-- Concrete fixtures for claim C2: a game carrying clean and overlaid
bytes, a simple hash oracle, and a filesystem already holding the backup. -/
def hashC2 : Bytes → String := fun b => "h" ++ toString b.length
def gameC2 : Game := ⟨"440", "TF2", [], ".png", some [1, 2], some [9, 9, 9], "manual customization", false⟩
def fsC2 : FS := [(getBackupPath hashC2 "grid" gameC2 bannerExts, [1, 2])]

/-- C2, counterexample.  The claim says the store skips the filesystem write
when a backup file with that hash already exists, so a second run performs
zero additional backup writes.  In the code backupGame writes
unconditionally: with the backup file for exactly this hash already on
disk, the call still performs one write (not zero). -/
theorem C2_counterexample :
    lookupFS fsC2 (getBackupPath hashC2 "grid" gameC2 bannerExts) = some [1, 2]
    ∧ gameC2.CleanImageBytes = some [1, 2]
    ∧ (backupGame hashC2 (fun _ => false) "grid" gameC2 bannerExts fsC2).writes = 1 := by
  refine ⟨?_, ?_, ?_⟩ <;> decide

/-- C2, amended.  backupGame always performs the write, but the operation is
idempotent on the backup set: the clean bytes go to a path derived from the
hash of the overlaid bytes, so when a backup file with that hash already
holds the same clean bytes the resulting filesystem is unchanged (and the
call reports no error while performing its one write). -/
theorem C2_store_idempotent_on_set
    (hash : Bytes → String) (wf : String → Bool) (gridDir : String)
    (game : Game) (exts : List String) (fs : FS) (cb : Bytes)
    (hclean : game.CleanImageBytes = some cb)
    (hok : wf (getBackupPath hash gridDir game exts) = false)
    (hexists : lookupFS fs (getBackupPath hash gridDir game exts) = some cb) :
    (backupGame hash wf gridDir game exts fs).fs = fs
    ∧ (backupGame hash wf gridDir game exts fs).err = none
    ∧ (backupGame hash wf gridDir game exts fs).writes = 1 := by
  refine ⟨?_, ?_, ?_⟩ <;>
    simp [backupGame, hclean, hok, lookupFS_writeFS_self fs _ cb hexists]

/-- C2, witness for the amended theorem at the concrete fixtures. -/
theorem C2_witness :
    (backupGame hashC2 (fun _ => false) "grid" gameC2 bannerExts fsC2).fs = fsC2 := by
  exact (C2_store_idempotent_on_set hashC2 (fun _ => false) "grid" gameC2 bannerExts fsC2
    [1, 2] (by decide) (by decide) (by decide)).1

/-- C9.  With no Content-Type header and no URL extension the recorded
extension is the bare string "jpg" without a leading dot, so the canonical
artwork filename concatenates without a dot separator (for game 440 and the
Banner id suffix this gives 440jpg); a Content-Type whose subtype is jpeg is
normalized to .jpg and one whose subtype is octet-stream to .png; and any
successful chain response without Content-Type and URL extension leaves
ImageExt = "jpg" in the game record. -/
theorem C9_extension_defaulting :
    computeImageExt "" "" = "jpg"
    ∧ (∀ gridDir gameID idSuffix : String,
        joinPath gridDir (gameID ++ idSuffix ++ computeImageExt "" "")
          = gridDir ++ "/" ++ gameID ++ idSuffix ++ "jpg")
    ∧ (∀ ct u : String, ct ≠ "" → (splitChar ct '/').getD 1 "" = "jpeg" →
        computeImageExt ct u = ".jpg")
    ∧ (∀ ct u : String, ct ≠ "" → (splitChar ct '/').getD 1 "" = "octet-stream" →
        computeImageExt ct u = ".png")
    ∧ (∀ (env : ChainEnv) (game : Game) (artStyle : String) (exts : List String)
        (apiKey filter0 igdbKey : String) (r : HttpResponse),
        tryDownload env.akamai = .ok (some r) →
        r.contentType = "" → filepathExt r.urlPath = "" →
        (DownloadImage env game artStyle exts false apiKey filter0 igdbKey false false).game.ImageExt
          = "jpg") := by
  refine ⟨by decide, ?_, ?_, ?_, ?_⟩
  · intro gridDir gameID idSuffix
    have h : computeImageExt "" "" = "jpg" := by decide
    rw [h]
    simp [joinPath, String.append_assoc]
  · intro ct u h1 h2
    simp only [computeImageExt, if_pos h1, h2]
    decide
  · intro ct u h1 h2
    simp only [computeImageExt, if_pos h1, h2]
    decide
  · intro env game artStyle exts apiKey filter0 igdbKey r h1 h2 h3
    have hgia : getImageAlternatives env game artStyle exts false apiKey filter0 igdbKey false false
        = ⟨some r, "steam server", none, false, false, false⟩ := by
      simp only [getImageAlternatives, giaSteamEarly, h1]
      rfl
    simp only [DownloadImage, hgia, h2, h3]
    have hext : computeImageExt "" "" = "jpg" := by decide
    cases hd : r.decoded with
    | none => simp [hext]
    | some xy =>
      obtain ⟨x, y⟩ := xy
      by_cases hb : artStyle = "Banner" ∧ x < y
      · simp [hb, hext]
      · by_cases hc : artStyle = "Cover" ∧ x > y
        · simp [hb, hc, hext]
        · simp [hb, hc, hext]

/-- C9, witness at the square-banner environment (Content-Type stripped). -/
theorem C9_witness :
    computeImageExt "image/jpeg" "" = ".jpg"
    ∧ (DownloadImage
        { envSquare with akamai := .resp ⟨200, "", "/steam/apps/440/header", [7, 7], some (100, 100)⟩ }
        game440 "Banner" bannerExts false "key" "?f" "" false false).game.ImageExt = "jpg" := by
  constructor
  · exact (C9_extension_defaulting).2.2.1 "image/jpeg" "" (by decide) (by decide)
  · exact (C9_extension_defaulting).2.2.2.2
      { envSquare with akamai := .resp ⟨200, "", "/steam/apps/440/header", [7, 7], some (100, 100)⟩ }
      game440 "Banner" bannerExts "key" "?f" ""
      ⟨200, "", "/steam/apps/440/header", [7, 7], some (100, 100)⟩
      rfl rfl rfl

/-- Fixtures for claim C10: the Cover art style extension list and a game
whose clean bytes no decoder accepts. -/
def coverExts : List String := ["p", ".cover", "library_600x900_2x.jpg", "600", "900", "300", "450"]
def gameC10 : GameO := ⟨["x"], ".png", some [9], none⟩

/-- C10, counterexample.  The claim says that a game whose tags match no
overlay passes through with success when the WEBP conversion is not forced.
But when the clean bytes fail all three decode attempts ApplyOverlay
returns the decode error even though no overlay would have been applied,
so "returns success" does not hold for every such game. -/
theorem C10_counterexample :
    (ApplyOverlay (fun _ => none) (fun _ => none) (fun _ => none)
        gameC10 [] coverExts false false 0).err = some "image: unknown format"
    ∧ gameC10.Tags ≠ []
    ∧ effectiveConvert false false (coverExts.getD 1 "") = false := by
  refine ⟨?_, ?_, ?_⟩ <;> decide

/-- C10, amended.  (1) A game with nil clean bytes or an empty tag list is
returned unchanged with a nil error before any decoding happens.  (2) A
game whose clean bytes decode under at least one of the three decoders and
whose tags match no overlay is returned unchanged with a nil error,
provided the WEBP to APNG conversion is not forced; without the
decodability assumption ApplyOverlay can fail (see the counterexample). -/
theorem C10_no_overlay_noop (getInfo : Bytes → Option WebpInfo)
    (apngD : Bytes → Option (List ApngFrame)) (imgD : Bytes → Option (Nat × Nat))
    (game : GameO) (ovs : Overlays) (exts : List String)
    (cW cB : Bool) (maxMem : Nat) :
    ((game.CleanImageBytes = none ∨ game.Tags = []) →
      ApplyOverlay getInfo apngD imgD game ovs exts cW cB maxMem
        = ⟨none, game, false, cW⟩)
    ∧ (∀ cb, game.CleanImageBytes = some cb →
      (∀ tag ∈ game.Tags, lookupOverlay ovs (normalizeTag tag ++ exts.getD 1 "") = none) →
      ¬(getInfo cb = none ∧ apngD cb = none ∧ imgD cb = none) →
      effectiveConvert cW cB (exts.getD 1 "") = false →
      (ApplyOverlay getInfo apngD imgD game ovs exts cW cB maxMem).err = none
      ∧ (ApplyOverlay getInfo apngD imgD game ovs exts cW cB maxMem).game = game) := by
  constructor
  · intro h
    simp [ApplyOverlay, h]
  · intro cb hcb hnomatch hdec hconv
    by_cases h0 : game.CleanImageBytes = none ∨ game.Tags = []
    · constructor <;> simp [ApplyOverlay, h0]
    · have h0' : ¬((some cb : Option Bytes) = none ∨ game.Tags = []) := by
        rintro (h | h)
        · exact Option.noConfusion h
        · exact h0 (Or.inr h)
      have key : ∃ fr cv,
          ApplyOverlay getInfo apngD imgD game ovs exts cW cB maxMem
            = ⟨none, game, fr, cv⟩ := by
        simp only [ApplyOverlay, hcb, Option.getD_some, if_neg h0', hconv]
        cases hgi : getInfo cb with
        | some info =>
          by_cases hfc : info.FrameCnt ≤ 1
          · simp only [if_pos hfc]
            cases hh : info.frames.head? with
            | some f =>
              exact ⟨_, _, overlayMain_no_match _ _ _ _ _ _ _ _ _ _ rfl hnomatch (Or.inl rfl)⟩
            | none =>
              exact ⟨_, _, overlayMain_no_match _ _ _ _ _ _ _ _ _ _ rfl hnomatch (Or.inl rfl)⟩
          · simp only [if_neg hfc]
            exact ⟨_, _, overlayMain_no_match _ _ _ _ _ _ _ _ _ _ rfl hnomatch
              (Or.inr (by rw [webpMemGate_false]))⟩
        | none =>
          cases hap : apngD cb with
          | some frames =>
            by_cases hlen : frames.length > 1
            · simp only [if_pos hlen]
              exact ⟨_, _, overlayMain_no_match _ _ _ _ _ _ _ _ _ _ rfl hnomatch (Or.inl rfl)⟩
            · simp only [if_neg hlen]
              exact ⟨_, _, overlayMain_no_match _ _ _ _ _ _ _ _ _ _ rfl hnomatch (Or.inl rfl)⟩
          | none =>
            cases him : imgD cb with
            | some dims =>
              exact ⟨_, _, overlayMain_no_match _ _ _ _ _ _ _ _ _ _ rfl hnomatch (Or.inl rfl)⟩
            | none => exact absurd ⟨hgi, hap, him⟩ hdec
      rcases key with ⟨fr, cv, hk⟩
      rw [hk]
      exact ⟨rfl, rfl⟩

/-- C10, witness for the amended theorem: decodable static image, one tag,
no overlay catalog, conversion flags off. -/
theorem C10_witness :
    (ApplyOverlay (fun _ => none) (fun _ => none) (fun _ => some (10, 20))
        ⟨["y"], ".png", some [1], none⟩ [] coverExts false false 0).err = none
    ∧ (ApplyOverlay (fun _ => none) (fun _ => none) (fun _ => some (10, 20))
        ⟨["y"], ".png", some [1], none⟩ [] coverExts false false 0).game
      = ⟨["y"], ".png", some [1], none⟩ := by
  exact (C10_no_overlay_noop (fun _ => none) (fun _ => none) (fun _ => some (10, 20))
      ⟨["y"], ".png", some [1], none⟩ [] coverExts false false 0).2
    [1] rfl (fun tag _ => rfl) (fun h => Option.noConfusion h.2.2) (by decide)

/-- C6, amended.  For an animated WEBP (FrameCnt above 1) that is transcoded
to APNG (conversion flag on after the memory gate), the frames pushed into
the APNG stream are exactly the converted input frames: the frame count is
preserved, and when the input timestamps are nondecreasing with every step
below 65536 milliseconds (so that the uint16 cast in the code cannot
truncate), frame 0 is re-based to delay 0 and every later frame keeps its
exact timestamp difference as its delay — which preserves the relative
ordering of the per-frame delays from frame 1 on.  Without the 65536 bound
the uint16 cast truncates and the ordering can flip (see the
counterexample). -/
theorem C6_frames_and_delays (getInfo : Bytes → Option WebpInfo)
    (apngD : Bytes → Option (List ApngFrame)) (imgD : Bytes → Option (Nat × Nat))
    (game : GameO) (ovs : Overlays) (exts : List String)
    (cW cB : Bool) (maxMem : Nat) (info : WebpInfo) (cb : Bytes)
    (hcb : game.CleanImageBytes = some cb)
    (htags : game.Tags ≠ [])
    (hinfo : getInfo cb = some info)
    (hn : 1 < info.FrameCnt)
    (hgate : (webpMemGate (effectiveConvert cW cB (exts.getD 1 "")) maxMem info).1 = true) :
    ∃ chunks,
      (ApplyOverlay getInfo apngD imgD game ovs exts cW cB maxMem).err = none
      ∧ (ApplyOverlay getInfo apngD imgD game ovs exts cW cB maxMem).game.OverlayImageBytes
          = some (EncodedOut.streamBuf chunks)
      ∧ streamFrames chunks = webpToApngFrames info 0 0 info.frames
      ∧ (streamFrames chunks).length = info.frames.length
      ∧ (∀ f0 rest, info.frames = f0 :: rest →
          boundedFrom f0.Timestamp rest = true →
          apngDelaysOf (streamFrames chunks) = 0 :: specDelaysFrom f0.Timestamp rest) := by
  have h0'' : ¬((some cb : Option Bytes) = none ∨ game.Tags = []) := by
    rintro (h | h)
    · exact Option.noConfusion h
    · exact htags h
  have hfc : ¬ info.FrameCnt ≤ 1 := by omega
  have happly : ApplyOverlay getInfo apngD imgD game ovs exts cW cB maxMem
      = overlayMain ovs (exts.getD 1 "") game true false true (some info)
          true (webpMemGate (effectiveConvert cW cB (exts.getD 1 "")) maxMem info).2
          ⟨false, none, [], info.frames, [], false, none, none, none⟩ := by
    simp only [ApplyOverlay, hcb, Option.getD_some, if_neg h0'', hinfo, if_neg hfc]
    rw [hgate]
  rw [happly]
  rcases webpConvFold_main ovs (exts.getD 1 "") info game.Tags
      ⟨false, none, [], info.frames, [], false, none, none, none⟩ rfl rfl with hcase | hcase
  · have hmain : overlayMain ovs (exts.getD 1 "") game true false true (some info)
        true (webpMemGate (effectiveConvert cW cB (exts.getD 1 "")) maxMem info).2
        ⟨false, none, [], info.frames, [], false, none, none, none⟩
        = ⟨none, { game with OverlayImageBytes := some (EncodedOut.streamBuf (webpConvChunks info info.frames)) }, (webpMemGate (effectiveConvert cW cB (exts.getD 1 "")) maxMem info).2, true⟩ := by
      unfold overlayMain
      rw [hcase]
      simp [overlayEncode, overlayFinish]
    refine ⟨webpConvChunks info info.frames, ?_, ?_, ?_, ?_, ?_⟩
    · rw [hmain]
    · rw [hmain]
    · exact streamFrames_webpConvChunks info info.frames
    · rw [streamFrames_webpConvChunks info info.frames]
      exact webpToApngFrames_length info info.frames 0 0
    · intro f0 rest heq hbound
      rw [streamFrames_webpConvChunks info info.frames, heq]
      exact webpToApngFrames_delays_head info f0 rest hbound
  · obtain ⟨r1, r2, r4, r5⟩ := hcase
    set res := game.Tags.foldl
      (overlayTagStep ovs (exts.getD 1 "") false true (some info) true)
      ⟨false, none, [], info.frames, [], false, none, none, none⟩ with hres
    have hmain : overlayMain ovs (exts.getD 1 "") game true false true (some info)
        true (webpMemGate (effectiveConvert cW cB (exts.getD 1 "")) maxMem info).2
        ⟨false, none, [], info.frames, [], false, none, none, none⟩
        = ⟨none, { game with OverlayImageBytes := some (EncodedOut.streamBuf res.buf) }, (webpMemGate (effectiveConvert cW cB (exts.getD 1 "")) maxMem info).2, true⟩ := by
      unfold overlayMain
      rw [← hres]
      simp [r1, r2, r4, overlayEncode, overlayFinish]
    refine ⟨res.buf, ?_, ?_, ?_, ?_, ?_⟩
    · rw [hmain]
    · rw [hmain]
    · exact r5
    · rw [r5]
      exact webpToApngFrames_length info info.frames 0 0
    · intro f0 rest heq hbound
      rw [r5, heq]
      exact webpToApngFrames_delays_head info f0 rest hbound

/-- The fixtures of the C6 counterexample: a 3-frame animated WEBP whose
second frame lasts 70000 milliseconds (above the uint16 range) and whose
third lasts 60000. -/
def c6info : WebpInfo :=
  ⟨100, 50, 0, 3, [⟨0, 100, 50, true⟩, ⟨70000, 100, 50, true⟩, ⟨130000, 100, 50, true⟩]⟩

def c6chunks : List ApngChunk :=
  [.header 3 0,
   .frame ⟨100, 50, 0, 0, 0, 1, 0, 1000⟩,
   .frame ⟨100, 50, 0, 0, 0, 1, 4464, 1000⟩,
   .frame ⟨100, 50, 0, 0, 0, 1, 60000, 1000⟩,
   .finish]

/-- The relative-ordering property the claim asserts: for frames i and j
(starting from 1), the input delays (timestamp differences) compare the
same way as the output delays. -/
def delaysPreserveRelOrder (ts : List Int) (ds : List Nat) : Prop :=
  ∀ i j, 1 ≤ i → i < ts.length → 1 ≤ j → j < ts.length →
    (ts.getD i 0 - ts.getD (i - 1) 0 ≤ ts.getD j 0 - ts.getD (j - 1) 0
      ↔ ds.getD i 0 ≤ ds.getD j 0)

/-- C6, counterexample.  Converting the fixture WEBP (timestamps 0, 70000,
130000) to APNG yields delays 0, 4464, 60000: the 70000 millisecond delay of
frame 1 is truncated by the uint16 cast to 4464, so the relative ordering of
the per-frame delays is not preserved (input has delay 1 above delay 2, the
output has delay 1 below delay 2), and the cumulative timestamps are not a
re-basing of the input.  The frame count is still preserved. -/
theorem C6_counterexample :
    (ApplyOverlay (fun _ => some c6info) (fun _ => none) (fun _ => none)
        ⟨["action"], ".webp", some [3], none⟩ [] bannerExts true false 0).game.OverlayImageBytes
      = some (EncodedOut.streamBuf c6chunks)
    ∧ apngDelaysOf (streamFrames c6chunks) = [0, 4464, 60000]
    ∧ (streamFrames c6chunks).length = 3
    ∧ ¬ delaysPreserveRelOrder [0, 70000, 130000] [0, 4464, 60000] := by
  refine ⟨by decide, by decide, by decide, ?_⟩
  intro h
  have h12 := h 1 2 (by omega) (by norm_num) (by omega) (by norm_num)
  have e1 : ([0, 70000, 130000] : List Int).getD 1 0 = 70000 := rfl
  have e2 : ([0, 70000, 130000] : List Int).getD 2 0 = 130000 := rfl
  have e0 : ([0, 70000, 130000] : List Int).getD 0 0 = 0 := rfl
  have d1 : ([0, 4464, 60000] : List Nat).getD 1 0 = 4464 := rfl
  have d2 : ([0, 4464, 60000] : List Nat).getD 2 0 = 60000 := rfl
  rw [show (1 : Nat) - 1 = 0 from rfl, show (2 : Nat) - 1 = 1 from rfl,
    e1, e2, e0, d1, d2] at h12
  have hcontr := h12.mpr (by norm_num)
  omega

/-- C6, witness for the amended theorem: a 3-frame WEBP with timestamps 0,
100, 300 (all steps below 65536) converts to delays 0, 100, 200. -/
theorem C6_witness :
    ∃ chunks,
      (ApplyOverlay (fun _ => some ⟨100, 50, 0, 3, [⟨0, 100, 50, true⟩, ⟨100, 100, 50, true⟩, ⟨300, 100, 50, true⟩]⟩)
          (fun _ => none) (fun _ => none)
          ⟨["action"], ".webp", some [3], none⟩ [] bannerExts true false 0).game.OverlayImageBytes
        = some (EncodedOut.streamBuf chunks)
      ∧ (streamFrames chunks).length = 3
      ∧ apngDelaysOf (streamFrames chunks) = [0, 100, 200] := by
  obtain ⟨chunks, herr, hov, hsf, hlen, hdel⟩ :=
    C6_frames_and_delays
      (fun _ => some ⟨100, 50, 0, 3, [⟨0, 100, 50, true⟩, ⟨100, 100, 50, true⟩, ⟨300, 100, 50, true⟩]⟩)
      (fun _ => none) (fun _ => none)
      ⟨["action"], ".webp", some [3], none⟩ [] bannerExts true false 0
      ⟨100, 50, 0, 3, [⟨0, 100, 50, true⟩, ⟨100, 100, 50, true⟩, ⟨300, 100, 50, true⟩]⟩ [3]
      rfl (by decide) rfl (by decide) (by decide)
  refine ⟨chunks, hov, ?_, ?_⟩
  · rw [hlen]
    rfl
  · rw [hdel ⟨0, 100, 50, true⟩ [⟨100, 100, 50, true⟩, ⟨300, 100, 50, true⟩] rfl (by decide)]
    decide

/-- C7.  For an animated WEBP with the effective conversion flag on and a
positive memory budget m: when frameCount times width times height times 4
exceeds m, the gate turns the conversion off (no eager reclamation runs,
and the result is never the streamed APNG buffer, so compositing stays with
the WEBP animation encoder); when the product fits in m but exceeds m / 2,
the eager memory reclamation runs and the conversion stays on.  The product
is assumed to fit in a uint64, which makes the modeled uint64 arithmetic
exact. -/
theorem C7_memory_gate (getInfo : Bytes → Option WebpInfo)
    (apngD : Bytes → Option (List ApngFrame)) (imgD : Bytes → Option (Nat × Nat))
    (game : GameO) (ovs : Overlays) (exts : List String)
    (cW cB : Bool) (maxMem : Nat) (info : WebpInfo) (cb : Bytes)
    (hcb : game.CleanImageBytes = some cb)
    (htags : game.Tags ≠ [])
    (hov : game.OverlayImageBytes = none)
    (hinfo : getInfo cb = some info)
    (hn : 1 < info.FrameCnt)
    (hconv0 : effectiveConvert cW cB (exts.getD 1 "") = true)
    (hm : 0 < maxMem)
    (hfit : info.FrameCnt * info.Width * info.Height * 4 < 2 ^ 64) :
    (info.FrameCnt * info.Width * info.Height * 4 > maxMem →
      (ApplyOverlay getInfo apngD imgD game ovs exts cW cB maxMem).convertFinal = false
      ∧ (ApplyOverlay getInfo apngD imgD game ovs exts cW cB maxMem).freedMem = false
      ∧ ∀ cs, (ApplyOverlay getInfo apngD imgD game ovs exts cW cB maxMem).game.OverlayImageBytes
          ≠ some (EncodedOut.streamBuf cs))
    ∧ (info.FrameCnt * info.Width * info.Height * 4 ≤ maxMem →
       maxMem / 2 < info.FrameCnt * info.Width * info.Height * 4 →
      (ApplyOverlay getInfo apngD imgD game ovs exts cW cB maxMem).convertFinal = true
      ∧ (ApplyOverlay getInfo apngD imgD game ovs exts cW cB maxMem).freedMem = true) := by
  have h0' : ¬(game.CleanImageBytes = none ∨ game.Tags = []) := by
    rintro (h | h)
    · rw [hcb] at h; exact Option.noConfusion h
    · exact htags h
  have h0'' : ¬((some cb : Option Bytes) = none ∨ game.Tags = []) := by
    rintro (h | h)
    · exact Option.noConfusion h
    · exact htags h
  have hfc : ¬ info.FrameCnt ≤ 1 := by omega
  have hmem : (info.Width * info.Height * 4 * info.FrameCnt) % (2 ^ 64)
      = info.FrameCnt * info.Width * info.Height * 4 := by
    have he : info.Width * info.Height * 4 * info.FrameCnt
        = info.FrameCnt * info.Width * info.Height * 4 := by ring
    rw [he, Nat.mod_eq_of_lt hfit]
  have happly : ApplyOverlay getInfo apngD imgD game ovs exts cW cB maxMem
      = overlayMain ovs (exts.getD 1 "") game true false true (some info)
          (webpMemGate true maxMem info).1 (webpMemGate true maxMem info).2
          ⟨false, none, [], info.frames, [], false, none, none, none⟩ := by
    simp only [ApplyOverlay, hcb, Option.getD_some, if_neg h0'', hinfo, if_neg hfc, hconv0]
  constructor
  · intro hover
    have hgate : webpMemGate true maxMem info = (false, false) := by
      simp only [webpMemGate, hmem]
      rw [if_pos ⟨trivial, hm⟩, if_pos hover]
    rw [happly, hgate]
    refine ⟨(overlayMain_flags _ _ _ _ _ _ _ _ _ _).1,
            (overlayMain_flags _ _ _ _ _ _ _ _ _ _).2, ?_⟩
    exact overlayMain_not_stream _ _ _ _ _ _ _ _ rfl hov
  · intro hfits hhalf
    have hgate : webpMemGate true maxMem info = (true, true) := by
      simp only [webpMemGate, hmem]
      rw [if_pos ⟨trivial, hm⟩, if_neg (by omega), if_pos hhalf]
    rw [happly, hgate]
    exact ⟨(overlayMain_flags _ _ _ _ _ _ _ _ _ _).1,
           (overlayMain_flags _ _ _ _ _ _ _ _ _ _).2⟩

/-- C7, witness: a 3-frame 100 by 50 WEBP (product 60000) against budgets
50000 (over budget) and 100000 (within budget, over half). -/
theorem C7_witness :
    (ApplyOverlay (fun _ => some ⟨100, 50, 0, 3, [⟨0, 100, 50, true⟩]⟩)
        (fun _ => none) (fun _ => none)
        ⟨["x"], ".webp", some [3], none⟩ [] bannerExts true false 50000).convertFinal = false
    ∧ (ApplyOverlay (fun _ => some ⟨100, 50, 0, 3, [⟨0, 100, 50, true⟩]⟩)
        (fun _ => none) (fun _ => none)
        ⟨["x"], ".webp", some [3], none⟩ [] bannerExts true false 100000).freedMem = true := by
  constructor
  · exact ((C7_memory_gate (fun _ => some ⟨100, 50, 0, 3, [⟨0, 100, 50, true⟩]⟩)
      (fun _ => none) (fun _ => none) ⟨["x"], ".webp", some [3], none⟩ [] bannerExts
      true false 50000 ⟨100, 50, 0, 3, [⟨0, 100, 50, true⟩]⟩ [3]
      rfl (by decide) rfl rfl (by decide) (by decide) (by decide) (by decide)).1
      (by decide)).1
  · exact ((C7_memory_gate (fun _ => some ⟨100, 50, 0, 3, [⟨0, 100, 50, true⟩]⟩)
      (fun _ => none) (fun _ => none) ⟨["x"], ".webp", some [3], none⟩ [] bannerExts
      true false 100000 ⟨100, 50, 0, 3, [⟨0, 100, 50, true⟩]⟩ [3]
      rfl (by decide) rfl rfl (by decide) (by decide) (by decide) (by decide)).2
      (by decide) (by decide)).2

/-- Shared run-level fixtures. -/
def heroExts : List String := ["_hero", ".hero", "library_hero.jpg", "3840", "1240", "1920", "620"]

/-- A chain in which every provider misses: both Steam mirrors answer 404,
SteamGridDB answers 200 with an unsuccessful grid response, IGDB and Google
produce nothing, and the final fetch of the (empty) URL fails like Go
http.Get on an empty URL. -/
def chainMiss : ChainEnv :=
  { akamai := .resp ⟨404, "", "", [], none⟩,
    cdn := .resp ⟨404, "", "", [], none⟩,
    sgdb := ⟨fun _ => .status 200 ⟨some ⟨false, []⟩, none⟩, fun l _ => l⟩,
    igdb := ⟨.ok none, .ok none⟩,
    google := ⟨.ok none⟩,
    fetchURL := fun _ => .netErr "unsupported protocol scheme" }

/-- C5.  (1) For every game and art style, when every provider in the chain
returns a soft miss the iteration records NotFound with a nil error, writes
no file, and leaves the filesystem untouched.  (2) The Google search
fallback is never attempted for the Cover art style, regardless of the
environment. -/
theorem C5_all_miss_notfound :
    (∀ (cfg : RunConfig) (env : PairEnv) (st : RunState) (game : Game)
        (artStyle : String) (exts : List String),
      env.loadResult = none →
      env.existingImages = [] →
      env.existingBackups = [] →
      cfg.skipSteam = false →
      cfg.onlyMissingArtwork = false →
      tryDownload env.chain.akamai = .ok none →
      tryDownload env.chain.cdn = .ok none →
      getSteamGridDBImage env.chain.sgdb (resetGame game) exts cfg.filter0 = .ok "" →
      getIGDBImage env.chain.igdb (resetGame game).Name = .ok "" →
      getGoogleImage env.chain.google (resetGame game).Name = .ok "" →
      (∀ r, tryDownload (env.chain.fetchURL "") ≠ .ok (some r)) →
      (processPair cfg env st game artStyle exts).2.notFound = true
      ∧ (processPair cfg env st game artStyle exts).2.downloadErr = none
      ∧ (processPair cfg env st game artStyle exts).2.events = []
      ∧ (processPair cfg env st game artStyle exts).1.fs = st.fs
      ∧ (processPair cfg env st game artStyle exts).1.aborted = st.aborted)
    ∧ (∀ (cfg : RunConfig) (env : PairEnv) (st : RunState) (game : Game)
        (exts : List String),
      (processPair cfg env st game "Cover" exts).2.usedGoogle = false) := by
  constructor
  · intro cfg env st game artStyle exts hL hI hB hss hom hA hC hSG hIG hG hE
    have hmiss := gia_all_miss env.chain (resetGame game) artStyle exts st.apiKey
      cfg.filter0 cfg.igdbKey cfg.skipGoogle hA hC hSG hIG hG hE
    have hload : applyLoadExisting env (resetGame game) = resetGame game := by
      unfold applyLoadExisting
      rw [hL]
    unfold processPair
    dsimp only
    rw [hload, if_pos (show (resetGame game).ImageSource = "" from rfl), hss, hom,
      DownloadImage_miss env.chain (resetGame game) artStyle exts false st.apiKey
        cfg.filter0 cfg.igdbKey cfg.skipGoogle false hmiss.1]
    dsimp only
    rw [if_pos (show (resetGame game).ImageSource = "" from rfl)]
    refine ⟨rfl, hmiss.2, ?_, ?_, rfl⟩
    · simp [hI, hB]
    · simp [hI, hB, removeAllFS]
  · intro cfg env st game exts
    unfold processPair
    dsimp only
    by_cases h1 : (applyLoadExisting env (resetGame game)).ImageSource = ""
    · rw [if_pos h1]
      have hg : (DownloadImage env.chain (applyLoadExisting env (resetGame game)) "Cover" exts
          cfg.skipSteam st.apiKey cfg.filter0 cfg.igdbKey cfg.skipGoogle
          cfg.onlyMissingArtwork).chain.usedGoogle = false := by
        rw [DownloadImage_chain]
        exact gia_cover_no_google env.chain (applyLoadExisting env (resetGame game)) exts
          cfg.skipSteam st.apiKey cfg.filter0 cfg.igdbKey cfg.skipGoogle cfg.onlyMissingArtwork
      by_cases h2 : (DownloadImage env.chain (applyLoadExisting env (resetGame game)) "Cover" exts
          cfg.skipSteam st.apiKey cfg.filter0 cfg.igdbKey cfg.skipGoogle
          cfg.onlyMissingArtwork).game.ImageSource = ""
      · rw [if_pos h2]
        exact hg
      · rw [if_neg h2, processRest_def]
        exact hg
    · rw [if_neg h1, processRest_def]

def envC5 : PairEnv := ⟨chainMiss, none, [], [], none, none, fun _ => false, fun _ => "h"⟩
def cfgC5 : RunConfig := ⟨"grid", false, false, false, "?f", "ik"⟩

/-- C5, witness: with every provider missing, the Cover iteration for game
440 is NotFound, writes nothing, and never consulted the Google search. -/
theorem C5_witness :
    (processPair cfgC5 envC5 ⟨"key", [], false⟩ game440 "Cover" coverExts).2.notFound = true
    ∧ (processPair cfgC5 envC5 ⟨"key", [], false⟩ game440 "Cover" coverExts).2.events = []
    ∧ (processPair cfgC5 envC5 ⟨"key", [], false⟩ game440 "Cover" coverExts).2.usedGoogle = false := by
  obtain ⟨h1, h2, h3, h4, h5⟩ := C5_all_miss_notfound.1 cfgC5 envC5 ⟨"key", [], false⟩
    game440 "Cover" coverExts rfl rfl rfl rfl rfl rfl rfl rfl rfl rfl
    (fun r h => by simp [envC5, chainMiss, tryDownload] at h)
  exact ⟨h1, h3, C5_all_miss_notfound.2 cfgC5 envC5 ⟨"key", [], false⟩ game440 coverExts⟩

/-- C4.  (1) A 401 from SteamGridDB becomes the sentinel error "401";
(2) getSteamGridDBImage turns it into the distinguishable auth-invalid
message (distinct from both a soft miss, which is ok "", and from hard
errors, which carry other messages); (3) an iteration whose download ends
with that message clears the api key, records the current game and art
style as not found, and does not abort the run; (4) with the key cleared,
an iteration never consults SteamGridDB and keeps the key cleared; (5) so
every remaining iteration of the run stays away from SteamGridDB. -/
theorem C4_auth_circuit_breaker :
    (∀ b : SGDBBody, steamGridDBGetRequest (SGDBFetch.status 401 b) = .error "401")
    ∧ (∀ (env : SGDBEnv) (game : Game) (exts : List String) (filter0 : String) (b : SGDBBody),
        game.Custom = false →
        (∀ u, env.request u = SGDBFetch.status 401 b) →
        getSteamGridDBImage env game exts filter0 = .error authInvalidMsg)
    ∧ (∀ (cfg : RunConfig) (env : PairEnv) (st : RunState) (g : Game)
        (a : String) (exts : List String),
        st.aborted = false →
        (processPair cfg env st g a exts).2.downloadErr = some authInvalidMsg →
        (processPair cfg env st g a exts).1.apiKey = ""
        ∧ (processPair cfg env st g a exts).2.notFound = true
        ∧ (processPair cfg env st g a exts).1.aborted = false)
    ∧ (∀ (cfg : RunConfig) (env : PairEnv) (st : RunState) (g : Game)
        (a : String) (exts : List String), st.apiKey = "" →
        (processPair cfg env st g a exts).2.usedSGDB = false
        ∧ (processPair cfg env st g a exts).1.apiKey = "")
    ∧ (∀ (cfg : RunConfig) (ps : List PairInput) (st : RunState), st.apiKey = "" →
        ∀ o ∈ (runPairs cfg ps st).2, o.usedSGDB = false) := by
  refine ⟨?_, ?_, ?_, ?_, ?_⟩
  · intro b
    rfl
  · intro env game exts filter0 b hcust hreq
    have h0 : ∀ i, sgdbTryDimension env game exts filter0 i
        = some (.error authInvalidMsg) := by
      intro i
      unfold sgdbTryDimension
      dsimp only
      rw [hcust, hreq]
      rfl
    unfold getSteamGridDBImage
    rw [h0 0]
  · intro cfg env st g a exts hab hde
    unfold processPair at hde ⊢
    dsimp only at hde ⊢
    by_cases h1 : (applyLoadExisting env (resetGame g)).ImageSource = ""
    · rw [if_pos h1] at hde ⊢
      by_cases h2 : (DownloadImage env.chain (applyLoadExisting env (resetGame g)) a exts
          cfg.skipSteam st.apiKey cfg.filter0 cfg.igdbKey cfg.skipGoogle
          cfg.onlyMissingArtwork).game.ImageSource = ""
      · rw [if_pos h2] at hde ⊢
        dsimp only at hde ⊢
        refine ⟨?_, rfl, hab⟩
        rw [hde, if_pos rfl]
      · rw [if_neg h2, processRest_def] at hde
        dsimp only at hde
        exfalso
        apply h2
        have hsrc := DownloadImage_err_source env.chain (applyLoadExisting env (resetGame g))
          a exts cfg.skipSteam st.apiKey cfg.filter0 cfg.igdbKey cfg.skipGoogle
          cfg.onlyMissingArtwork (by rw [hde]; simp)
        rw [hsrc, h1]
    · rw [if_neg h1, processRest_def] at hde
      dsimp only at hde
      exact Option.noConfusion hde
  · intro cfg env st g a exts hkey
    exact processPair_no_key cfg env st g a exts hkey
  · intro cfg ps st hkey
    exact runPairs_no_key cfg ps st hkey

def chain401 : ChainEnv :=
  { chainMiss with sgdb := ⟨fun _ => .status 401 ⟨none, none⟩, fun l _ => l⟩ }
def envC4 : PairEnv := ⟨chain401, none, [], [], none, none, fun _ => false, fun _ => "h"⟩
def cfgC4 : RunConfig := ⟨"grid", true, true, false, "?f", ""⟩

/-- C4, witness at a provider that answers 401 to every request. -/
theorem C4_witness :
    getSteamGridDBImage chain401.sgdb game440 bannerExts "?f" = .error authInvalidMsg
    ∧ (processPair cfgC4 envC4 ⟨"key", [], false⟩ game440 "Hero" heroExts).1.apiKey = ""
    ∧ (processPair cfgC4 envC4 ⟨"key", [], false⟩ game440 "Hero" heroExts).1.aborted = false
    ∧ (processPair cfgC4 envC4 ⟨"", [], false⟩ game440 "Hero" heroExts).2.usedSGDB = false := by
  refine ⟨?_, ?_, ?_, ?_⟩
  · exact C4_auth_circuit_breaker.2.1 chain401.sgdb game440 bannerExts "?f" ⟨none, none⟩
      rfl (fun u => rfl)
  · exact (C4_auth_circuit_breaker.2.2.1 cfgC4 envC4 ⟨"key", [], false⟩ game440 "Hero"
      heroExts rfl (by decide)).1
  · exact (C4_auth_circuit_breaker.2.2.1 cfgC4 envC4 ⟨"key", [], false⟩ game440 "Hero"
      heroExts rfl (by decide)).2.2
  · exact (C4_auth_circuit_breaker.2.2.2.1 cfgC4 envC4 ⟨"", [], false⟩ game440 "Hero"
      heroExts rfl).1

/-- C3.  For every reachable iteration whose save phase runs with a non-nil
clean image: when the backup write succeeds, the event trace is the
removeExisting deletions, then the backup write of the clean bytes, and
only then the artwork writes; when the backup write fails, the run aborts
with no successful write at all — so the composited image is never on disk
without the clean backup written first. -/
theorem C3_backup_precedes_artwork (cfg : RunConfig) (env : PairEnv) (st : RunState)
    (game : Game) (artStyle : String) (exts : List String) (cb : Bytes)
    (hnf : (processPair cfg env st game artStyle exts).2.notFound = false)
    (hclean : (processPair cfg env st game artStyle exts).2.finalGame.CleanImageBytes
      = some cb) :
    (env.writeFails (getBackupPath env.hash cfg.gridDir
          (processPair cfg env st game artStyle exts).2.finalGame exts) = false →
      ∃ tail, (processPair cfg env st game artStyle exts).2.events
          = (env.existingImages ++ env.existingBackups).map FsEvent.del
            ++ FsEvent.writeOk (getBackupPath env.hash cfg.gridDir
                (processPair cfg env st game artStyle exts).2.finalGame exts) cb :: tail)
    ∧ (env.writeFails (getBackupPath env.hash cfg.gridDir
          (processPair cfg env st game artStyle exts).2.finalGame exts) = true →
      (processPair cfg env st game artStyle exts).2.events
          = (env.existingImages ++ env.existingBackups).map FsEvent.del
            ++ [FsEvent.writeFail (getBackupPath env.hash cfg.gridDir
                (processPair cfg env st game artStyle exts).2.finalGame exts)]
      ∧ (processPair cfg env st game artStyle exts).1.aborted = true
      ∧ ∀ p b, FsEvent.writeOk p b ∉ (processPair cfg env st game artStyle exts).2.events) := by
  rcases processPair_branches cfg env st game artStyle exts with ⟨h1, _, _, _⟩ |
    ⟨g2, key2, uS, uG, dlErr, heq⟩
  · rw [h1] at hnf
    exact Bool.noConfusion hnf
  · rw [heq] at hclean ⊢
    rw [processRest_def] at hclean ⊢
    dsimp only at hclean ⊢
    obtain ⟨hok, hfail⟩ := savePhase_clean_shape env cfg exts artStyle
      (removeAllFS st.fs (env.existingImages ++ env.existingBackups))
      (overlayAdjust env g2) cb hclean
    constructor
    · intro hw
      obtain ⟨hev, _⟩ := hok hw
      exact ⟨_, by rw [hev]⟩
    · intro hw
      obtain ⟨hev, habt⟩ := hfail hw
      refine ⟨by rw [hev], ?_, ?_⟩
      · rw [habt]
        simp
      · intro p b hmem
        rw [hev] at hmem
        simp [List.mem_append, List.mem_map] at hmem

def envC3 : PairEnv :=
  ⟨chainMiss, some ("manual customization", ".png", [1, 2]), [], [], none, none,
    fun _ => false, fun _ => "h"⟩
def cfgH : RunConfig := ⟨"grid", true, true, false, "?f", ""⟩

/-- C3, witness: a recovered manual image is backed up before the artwork
write, and the backup event leads the save trace. -/
theorem C3_witness :
    ∃ tail, (processPair cfgH envC3 ⟨"", [], false⟩ game440 "Hero" heroExts).2.events
      = (envC3.existingImages ++ envC3.existingBackups).map FsEvent.del
        ++ FsEvent.writeOk (getBackupPath envC3.hash cfgH.gridDir
            (processPair cfgH envC3 ⟨"", [], false⟩ game440 "Hero" heroExts).2.finalGame
            heroExts) [1, 2] :: tail := by
  exact (C3_backup_precedes_artwork cfgH envC3 ⟨"", [], false⟩ game440 "Hero" heroExts
    [1, 2] (by decide) (by decide)).1 (by decide)

/-- C8, amended.  The only error in one iteration that terminates the whole
run is a backup write failure (errorAndExit in the save phase): an
iteration aborts exactly when its backup write failed; when no iteration
aborts every unit of the run is processed; and an iteration without a
backup failure (in particular one whose final artwork write failed and was
merely reported) leaves the abort state untouched. -/
theorem C8_only_backup_aborts :
    (∀ (cfg : RunConfig) (env : PairEnv) (st : RunState) (g : Game)
        (a : String) (exts : List String), st.aborted = false →
      ((processPair cfg env st g a exts).1.aborted = true
        ↔ (processPair cfg env st g a exts).2.backupFailed = true))
    ∧ (∀ (cfg : RunConfig) (env : PairEnv) (st : RunState) (g : Game)
        (a : String) (exts : List String),
        (processPair cfg env st g a exts).2.backupFailed = false →
        (processPair cfg env st g a exts).1.aborted = st.aborted)
    ∧ (∀ (cfg : RunConfig) (ps : List PairInput) (st : RunState),
        (runPairs cfg ps st).1.aborted = false →
        (runPairs cfg ps st).2.length = ps.length) := by
  have hpp : ∀ (cfg : RunConfig) (env : PairEnv) (st : RunState) (g : Game)
      (a : String) (exts : List String),
      (processPair cfg env st g a exts).1.aborted
        = (st.aborted || (processPair cfg env st g a exts).2.backupFailed) := by
    intro cfg env st g a exts
    rcases processPair_branches cfg env st g a exts with ⟨_, _, h3, h4⟩ |
      ⟨g2, key2, uS, uG, dlErr, heq⟩
    · rw [h3, h4]
      simp
    · rw [heq, processRest_def]
      dsimp only
      rw [savePhase_aborted_eq]
  refine ⟨?_, ?_, ?_⟩
  · intro cfg env st g a exts hab
    rw [hpp, hab]
    simp
  · intro cfg env st g a exts hbf
    rw [hpp, hbf]
    simp
  · intro cfg ps
    induction ps with
    | nil => intro st _; rfl
    | cons p rest ih =>
      intro st h
      unfold runPairs at h ⊢
      dsimp only at h ⊢
      cases hab : (processPair cfg p.env st p.game p.artStyle p.exts).1.aborted with
      | true =>
        rw [hab, if_pos rfl] at h
        dsimp only at h
        rw [hab] at h
        exact Bool.noConfusion h
      | false =>
        rw [hab, if_neg (by simp)] at h
        rw [if_neg (by simp)]
        dsimp only at h ⊢
        rw [List.length_cons, List.length_cons,
          ih (processPair cfg p.env st p.game p.artStyle p.exts).1 h]

def envFailC8 : PairEnv :=
  ⟨chainMiss, some ("manual customization", ".png", [1]), [], [], none, none,
    fun _ => true, fun _ => "h"⟩
def envOkC8 : PairEnv := { envFailC8 with writeFails := fun _ => false }

/-- C8, counterexample.  The claim says no error anywhere terminates the
whole run.  But a backup write failure reaches errorAndExit: with two units
of work and a failing filesystem in the first, the run aborts after the
first unit and the second is never processed. -/
theorem C8_counterexample :
    (runPairs cfgH [⟨envFailC8, game440, "Hero", heroExts⟩,
        ⟨envOkC8, game440, "Hero", heroExts⟩] ⟨"", [], false⟩).1.aborted = true
    ∧ (runPairs cfgH [⟨envFailC8, game440, "Hero", heroExts⟩,
        ⟨envOkC8, game440, "Hero", heroExts⟩] ⟨"", [], false⟩).2.length = 1
    ∧ (runPairs cfgH [⟨envOkC8, game440, "Hero", heroExts⟩,
        ⟨envOkC8, game440, "Hero", heroExts⟩] ⟨"", [], false⟩).2.length = 2 := by
  refine ⟨?_, ?_, ?_⟩ <;> decide

def envArtFailC8 : PairEnv :=
  { envFailC8 with writeFails := fun p => p == joinPath "grid" ("440" ++ "_hero" ++ ".png") }

/-- C8, witness for the amended theorem: an artwork write failure is
recorded but does not abort. -/
theorem C8_witness :
    (processPair cfgH envArtFailC8 ⟨"", [], false⟩ game440 "Hero" heroExts).2.artworkFailed = true
    ∧ (processPair cfgH envArtFailC8 ⟨"", [], false⟩ game440 "Hero" heroExts).1.aborted = false := by
  constructor
  · decide
  · exact C8_only_backup_aborts.2.1 cfgH envArtFailC8 ⟨"", [], false⟩ game440 "Hero"
      heroExts (by decide)

end SteamGrid
